import Mathlib

/-! # xemu_menu: the EEPROM settings menu (`menu_eeprom.c`)

A shallow embedding of the settings persistence code of `menu_eeprom.c`:
the checksum (`xbox_eeprom_crc`), the read-modify-write of the factory
settings block (`apply_settings`), the loading of the settings
(`query_eeprom`) and the mutators bound to the menu lines.

Conventions of the embedding.

* `unsigned int` / `ULONG` values are natural numbers, truncated with an
  explicit `% 2 ^ 32` where the C arithmetic truncates; `int` values are
  integers, wrapped by `wrapInt32`; bytes are natural numbers reduced
  `% 256` where the C code stores an `unsigned char`.
* The target is the (little-endian) x86 Xbox, so a 32-bit word in a byte
  buffer is read and stored least significant byte first.
* The kernel services (`ExQueryNonVolatileSetting`,
  `ExSaveNonVolatileSetting`, `HalReadSMBusValue`, `HalWriteSMBusValue`,
  `rand`) are not part of the program: what they deliver is a parameter
  of the embedded function and the calls that have an outside effect are
  recorded in a list of `Event`s.
* The constants of the platform headers that the source only names
  (`AV_REGION_*`, `VIDEO_*`, `AUDIO_FLAG_*`) are the fields of a
  `Platform` parameter.
* `update_eeprom_text`, called at the end of every mutator, rebuilds the
  menu text from the settings and changes none of them; it is embedded on
  its own, as a function of the settings, and left out of the state
  transitions.
-/

namespace MenuEeprom

/-! ## Machine integers and bytes -/

/-- Bitwise complement of an `unsigned int`: `~x`. -/
def not32 (x : Nat) : Nat := 2 ^ 32 - 1 - x % 2 ^ 32

/-- Conversion of a `ULONG` to `int` (two's complement). -/
def toInt32 (x : Nat) : Int :=
  if x % 2 ^ 32 < 2 ^ 31 then ((x % 2 ^ 32 : Nat) : Int) else ((x % 2 ^ 32 : Nat) : Int) - 2 ^ 32

/-- The 32-bit pattern of an `int`, as it is seen through a pointer to its 4 bytes. -/
def ofInt32 (x : Int) : Nat := (x % 2 ^ 32).toNat

/-- Result of `int` arithmetic, wrapped to 32 bits. -/
def wrapInt32 (x : Int) : Int := (x + 2 ^ 31) % 2 ^ 32 - 2 ^ 31

/-- The `n` bytes of `v`, least significant first. -/
def bytesLE (n v : Nat) : List Nat := (List.range n).map (fun k => v / 256 ^ k % 256)

/-- Store the bytes `bs` into `buf` from offset `off` on; a byte that falls
outside `buf` is outside the modelled object and is dropped. -/
def storeBytes (buf : List Nat) (off : Nat) : List Nat → List Nat
  | [] => buf
  | b :: bs => storeBytes (buf.set off (b % 256)) (off + 1) bs

/-- Store a `ULONG` through a pointer to byte `off` of `buf`. -/
def storeULONG (buf : List Nat) (off v : Nat) : List Nat := storeBytes buf off (bytesLE 4 v)

/-- Read `((unsigned int *)data)[i]`. -/
def word32 (data : List Nat) (i : Nat) : Nat :=
  data.getD (4 * i) 0 % 256 + 256 * (data.getD (4 * i + 1) 0 % 256)
    + 65536 * (data.getD (4 * i + 2) 0 % 256) + 16777216 * (data.getD (4 * i + 3) 0 % 256)

/-! ## Constants -/

def MAX_LINES : Nat := 32

def MAX_CHARACTERS : Nat := 512

def EEPROM_SMBUS_ADDRESS : Nat := 0xA8

def EEPROM_FACTORY_OFFSET : Nat := 0x30

/-- Modelled from the spec: the `GAME_REGION_*` constants of the platform
header, which the source only names; the spec gives NorthAmerica=1. -/
def GAME_REGION_NA : Nat := 0x00000001

/-- Modelled from the spec: Japan=2. -/
def GAME_REGION_JAPAN : Nat := 0x00000002

/-- Modelled from the spec: Europe=4. -/
def GAME_REGION_EUROPE : Nat := 0x00000004

/-- Modelled from the spec: Manufacturing=0x80000000. -/
def GAME_REGION_MANUFACTURING : Nat := 0x80000000

/-- The constants of the platform headers used by the menu; their values
are not in the source. -/
structure Platform where
  AV_REGION_NTSC : Nat
  AV_REGION_NTSCJ : Nat
  AV_REGION_PAL : Nat
  AV_REGION_PALM : Nat
  VIDEO_WIDESCREEN : Nat
  VIDEO_LETTERBOX : Nat
  VIDEO_50Hz : Nat
  VIDEO_60Hz : Nat
  VIDEO_MODE_480P : Nat
  VIDEO_MODE_720P : Nat
  VIDEO_MODE_1080I : Nat
  AUDIO_FLAG_CHANNEL_MASK : Nat
  AUDIO_FLAG_CHANNEL_MONO : Nat
  AUDIO_FLAG_CHANNEL_SURROUND : Nat
  AUDIO_FLAG_ENCODING_MASK : Nat
  AUDIO_FLAG_ENCODING_AC3 : Nat
  AUDIO_FLAG_ENCODING_DTS : Nat
  deriving DecidableEq, Repr

/-- The values these constants have in the Xbox kernel headers. -/
def xboxPlatform : Platform where
  AV_REGION_NTSC := 0x00400100
  AV_REGION_NTSCJ := 0x00400200
  AV_REGION_PAL := 0x00800300
  AV_REGION_PALM := 0x00400400
  VIDEO_WIDESCREEN := 0x00010000
  VIDEO_LETTERBOX := 0x00100000
  VIDEO_50Hz := 0x00800000
  VIDEO_60Hz := 0x00400000
  VIDEO_MODE_480P := 0x00080000
  VIDEO_MODE_720P := 0x00020000
  VIDEO_MODE_1080I := 0x00040000
  AUDIO_FLAG_CHANNEL_MASK := 0x00000003
  AUDIO_FLAG_CHANNEL_MONO := 0x00000001
  AUDIO_FLAG_CHANNEL_SURROUND := 0x00000002
  AUDIO_FLAG_ENCODING_MASK := 0x00030000
  AUDIO_FLAG_ENCODING_AC3 := 0x00010000
  AUDIO_FLAG_ENCODING_DTS := 0x00020000

/-- The keys of the non-volatile settings that the menu queries or saves. -/
inductive Key
  | XC_DVD_REGION
  | XC_LANGUAGE
  | XC_VIDEO
  | XC_AUDIO
  | XC_TIMEZONE_BIAS
  | XC_FACTORY_AV_REGION
  | XC_FACTORY_GAME_REGION
  | XC_FACTORY_ETHERNET_ADDR
  deriving DecidableEq, Repr

/-! ## The factory settings block: `eeprom_factory_settings_t` -/

/-- The members of `eeprom_factory_settings_t`. -/
inductive Member
  | checksum
  | serial_number
  | mac_address
  | padding1
  | online_key
  | av_region
  | padding2
  deriving DecidableEq, Repr

/-- A member declaration: its name, its size and its alignment in bytes. -/
structure Field where
  name : Member
  size : Nat
  align : Nat
  deriving DecidableEq, Repr

/-- The declaration of the struct, member by member: `unsigned int` is 4
bytes aligned to 4, `unsigned char [n]` is `n` bytes aligned to 1. -/
def eeprom_factory_settings_t : List Field :=
  [ ⟨Member.checksum, 4, 4⟩,
    ⟨Member.serial_number, 12, 1⟩,
    ⟨Member.mac_address, 6, 1⟩,
    ⟨Member.padding1, 2, 1⟩,
    ⟨Member.online_key, 16, 1⟩,
    ⟨Member.av_region, 4, 4⟩,
    ⟨Member.padding2, 4, 1⟩ ]

/-- Round `off` up to a multiple of `a`. -/
def alignUp (off a : Nat) : Nat := (off + a - 1) / a * a

/-- C struct layout: each member is placed at the next offset that has its
alignment. Returns the members with their offsets, from offset `off` on. -/
def layoutFrom : Nat → List Field → List (Field × Nat)
  | _, [] => []
  | off, f :: fs => (f, alignUp off f.align) :: layoutFrom (alignUp off f.align + f.size) fs

/-- The members of a struct with their offsets. -/
def layout (fs : List Field) : List (Field × Nat) := layoutFrom 0 fs

/-- Offset of a member: `offsetof`. -/
def offsetof (fs : List Field) (m : Member) : Nat :=
  match (layout fs).find? (fun p => p.1.name = m) with
  | some p => p.2
  | none => 0

/-- Size of a member: `sizeof(s.m)`. -/
def sizeofMember (fs : List Field) (m : Member) : Nat :=
  match fs.find? (fun f => f.name = m) with
  | some f => f.size
  | none => 0

/-- Size of the struct: the end of the last member, rounded up to the
largest member alignment: `sizeof`. -/
def sizeof (fs : List Field) : Nat :=
  alignUp ((layout fs).foldl (fun _ p => p.2 + p.1.size) 0) (fs.foldl (fun a f => max a f.align) 1)

/-! ## The checksum: `xbox_eeprom_crc` -/

/-- One iteration of the loop of `xbox_eeprom_crc` on the pair `(high, low)`. -/
def crcStep (data : List Nat) (hl : Nat × Nat) (i : Nat) : Nat × Nat :=
  let val := word32 data i
  let sum := ((hl.1 <<< 32) ||| hl.2) % 2 ^ 64
  ((((sum + val) % 2 ^ 64) >>> 32) % 2 ^ 32, (hl.2 + val) % 2 ^ 32)

/-- The loop of `xbox_eeprom_crc`: `i` runs from `0` to `len / 4 - 1`. -/
def crcLoop (data : List Nat) (len : Nat) : Nat × Nat :=
  (List.range (len / 4)).foldl (crcStep data) (0, 0)

/-- The checksum `xbox_eeprom_crc(data, len)`: `~(high + low)`. -/
def xbox_eeprom_crc (data : List Nat) (len : Nat) : Nat :=
  not32 ((crcLoop data len).1 + (crcLoop data len).2)

/-! ## The settings: the file-scope variables -/

/-- The settings held in the static variables of the file. -/
structure Settings where
  dvd_region_index : Int
  language_index : Int
  mac_address : List Nat
  video_flags : Nat
  audio_flags : Nat
  av_region : Nat
  game_region_index : Nat
  time_zone_offset : Int
  dirty : Int
  deriving DecidableEq, Repr

/-- The static initialisers: everything is zero, the MAC address is six zero bytes. -/
def Settings.initial : Settings where
  dvd_region_index := 0
  language_index := 0
  mac_address := [0, 0, 0, 0, 0, 0]
  video_flags := 0
  audio_flags := 0
  av_region := 0
  game_region_index := 0
  time_zone_offset := 0
  dirty := 0

/-- A call with an effect outside the program. -/
inductive Event
  /-- The call `ExSaveNonVolatileSetting(key, type, &value, size)`. -/
  | save (key : Key) (type value size : Nat)
  /-- The call `HalReadSMBusValue(address, command, FALSE, ...)`. -/
  | smbusRead (address command : Nat)
  /-- The call `HalWriteSMBusValue(address, command, FALSE, value)`. -/
  | smbusWrite (address command value : Nat)
  deriving DecidableEq, Repr

/-! ## `apply_settings` -/

/-- The five `ExSaveNonVolatileSetting` calls of `apply_settings`, in program order. -/
def saveCalls (s : Settings) : List Event :=
  [ Event.save Key.XC_DVD_REGION 4 (ofInt32 s.dvd_region_index) 4,
    Event.save Key.XC_LANGUAGE 4 (ofInt32 s.language_index) 4,
    Event.save Key.XC_VIDEO 4 (s.video_flags % 2 ^ 32) 4,
    Event.save Key.XC_AUDIO 4 (s.audio_flags % 2 ^ 32) 4,
    Event.save Key.XC_TIMEZONE_BIAS 4 (ofInt32 s.time_zone_offset) 4 ]

/-- The first loop of `apply_settings`: for `i` from `0` to `n - 1`,
`HalReadSMBusValue` stores the `ULONG` it delivers for command
`EEPROM_FACTORY_OFFSET + i` through a pointer to byte `i` of the block.
`smbus address command` is that `ULONG`. -/
def readBlock (smbus : Nat → Nat → Nat) (n : Nat) (buf : List Nat) : List Nat :=
  (List.range n).foldl
    (fun b i => storeULONG b i (smbus EEPROM_SMBUS_ADDRESS (EEPROM_FACTORY_OFFSET + i))) buf

/-- The block as `apply_settings` has read it: the struct is a local
variable, every byte of which the loop overwrites. -/
def factoryBlockRead (smbus : Nat → Nat → Nat) : List Nat :=
  readBlock smbus (sizeof eeprom_factory_settings_t)
    (List.replicate (sizeof eeprom_factory_settings_t) 0)

/-- The block after `factory_settings.av_region = av_region` and the
`memcpy` of `mac_address`. -/
def factoryBlockOverlay (smbus : Nat → Nat → Nat) (s : Settings) : List Nat :=
  let b := storeULONG (factoryBlockRead smbus) (offsetof eeprom_factory_settings_t Member.av_region)
    s.av_region
  storeBytes b (offsetof eeprom_factory_settings_t Member.mac_address)
    ((List.range (sizeofMember eeprom_factory_settings_t Member.mac_address)).map
      (fun j => s.mac_address.getD j 0))

/-- The block after the assignment to `factory_settings.checksum`: the
checksum is computed from byte 4 on, over `sizeof(factory_settings) -
sizeof(factory_settings.checksum)` bytes. -/
def factoryBlockFinal (smbus : Nat → Nat → Nat) (s : Settings) : List Nat :=
  let b := factoryBlockOverlay smbus s
  storeULONG b (offsetof eeprom_factory_settings_t Member.checksum)
    (xbox_eeprom_crc (b.drop 4)
      (sizeof eeprom_factory_settings_t - sizeofMember eeprom_factory_settings_t Member.checksum))

/-- The `HalReadSMBusValue` calls of the first loop. -/
def readCalls (n : Nat) : List Event :=
  (List.range n).map (fun i => Event.smbusRead EEPROM_SMBUS_ADDRESS (EEPROM_FACTORY_OFFSET + i))

/-- The `HalWriteSMBusValue` calls of the second loop on the block `b`. -/
def writeCalls (b : List Nat) (n : Nat) : List Event :=
  (List.range n).map
    (fun i => Event.smbusWrite EEPROM_SMBUS_ADDRESS (EEPROM_FACTORY_OFFSET + i) (b.getD i 0))

/-- The function `apply_settings`: the new settings and the calls issued, in order. -/
def apply_settings (smbus : Nat → Nat → Nat) (s : Settings) : Settings × List Event :=
  ({ s with dirty := 0 },
   saveCalls s ++ readCalls (sizeof eeprom_factory_settings_t)
     ++ writeCalls (factoryBlockFinal smbus s) (sizeof eeprom_factory_settings_t))

/-- The bytes passed to `HalWriteSMBusValue`, in call order. -/
def writtenBytes (tr : List Event) : List Nat :=
  tr.filterMap (fun e => match e with
    | Event.smbusWrite _ _ v => some v
    | _ => none)

/-- The commands (EEPROM offsets) passed to `HalWriteSMBusValue`, in call order. -/
def writtenOffsets (tr : List Event) : List Nat :=
  tr.filterMap (fun e => match e with
    | Event.smbusWrite _ c _ => some c
    | _ => none)

/-- The commands (EEPROM offsets) passed to `HalReadSMBusValue`, in call order. -/
def readOffsets (tr : List Event) : List Nat :=
  tr.filterMap (fun e => match e with
    | Event.smbusRead _ c => some c
    | _ => none)

/-- The block that one `apply_settings` writes back. -/
def writtenBlock (smbus : Nat → Nat → Nat) (s : Settings) : List Nat :=
  writtenBytes (apply_settings smbus s).2

/-- The `unsigned int` member stored at byte offset `off` of a block. -/
def fieldULONG (b : List Nat) (off : Nat) : Nat := word32 (b.drop off) 0

/-! ## The mutators -/

/-- The search loop of `increment_game_region` and `increment_video_region`:
`for (i = 0; i < 4; i++)`, entered at `i` with `n` iterations left. At the
first `i` with `regions[i] == cur` the index becomes `(i + 1) % 4` and the
loop is left; when the loop runs out the index is still `0`. -/
def nextIndexFrom (regions : List Nat) (cur : Nat) (i : Nat) : Nat → Nat
  | 0 => 0
  | n + 1 =>
    if regions.getD i 0 = cur then (i + 1) % 4 else nextIndexFrom regions cur (i + 1) n

/-- The index that the search loop leaves for the current value `cur`. -/
def nextIndex (regions : List Nat) (cur : Nat) : Nat := nextIndexFrom regions cur 0 4

/-- The table `regions` of `increment_game_region`. -/
def gameRegions : List Nat :=
  [GAME_REGION_NA, GAME_REGION_JAPAN, GAME_REGION_EUROPE, GAME_REGION_MANUFACTURING]

/-- The table `regions` of `increment_video_region`. -/
def videoRegions (k : Platform) : List Nat :=
  [k.AV_REGION_NTSC, k.AV_REGION_PAL, k.AV_REGION_NTSCJ, k.AV_REGION_PALM]

def increment_game_region (s : Settings) : Settings :=
  { s with
    game_region_index := gameRegions.getD (nextIndex gameRegions s.game_region_index) 0
    dirty := 1 }

def increment_dvd_region (s : Settings) : Settings :=
  { s with dvd_region_index := (wrapInt32 (s.dvd_region_index + 1)).tmod 7, dirty := 1 }

def increment_language (s : Settings) : Settings :=
  { s with language_index := (wrapInt32 (s.language_index + 1)).tmod 10, dirty := 1 }

def increment_video_region (k : Platform) (s : Settings) : Settings :=
  { s with
    av_region := (videoRegions k).getD (nextIndex (videoRegions k) s.av_region) 0
    dirty := 1 }

def video_increment_aspect_ratio (k : Platform) (s : Settings) : Settings :=
  if s.video_flags &&& k.VIDEO_WIDESCREEN ≠ 0 then
    { s with
      video_flags := ((s.video_flags &&& not32 k.VIDEO_WIDESCREEN) ||| k.VIDEO_LETTERBOX) % 2 ^ 32
      dirty := 1 }
  else if s.video_flags &&& k.VIDEO_LETTERBOX ≠ 0 then
    { s with video_flags := s.video_flags &&& not32 k.VIDEO_LETTERBOX, dirty := 1 }
  else
    { s with video_flags := (s.video_flags ||| k.VIDEO_WIDESCREEN) % 2 ^ 32, dirty := 1 }

def video_increment_refresh_rate (k : Platform) (s : Settings) : Settings :=
  let index := (s.video_flags >>> 22) &&& 0x03
  let index := (index + 1) % 4
  { s with
    video_flags :=
      ((s.video_flags &&& not32 (k.VIDEO_50Hz ||| k.VIDEO_60Hz)) ||| (index <<< 22) % 2 ^ 32)
        % 2 ^ 32
    dirty := 1 }

def video_toggle_480p (k : Platform) (s : Settings) : Settings :=
  { s with video_flags := (s.video_flags ^^^ k.VIDEO_MODE_480P) % 2 ^ 32, dirty := 1 }

def video_toggle_720p (k : Platform) (s : Settings) : Settings :=
  { s with video_flags := (s.video_flags ^^^ k.VIDEO_MODE_720P) % 2 ^ 32, dirty := 1 }

def video_toggle_1080i (k : Platform) (s : Settings) : Settings :=
  { s with video_flags := (s.video_flags ^^^ k.VIDEO_MODE_1080I) % 2 ^ 32, dirty := 1 }

def audio_increment_channel (k : Platform) (s : Settings) : Settings :=
  let index := (s.audio_flags &&& k.AUDIO_FLAG_CHANNEL_MASK) >>> 0
  let index := (index + 1) % 3
  { s with
    audio_flags :=
      ((s.audio_flags &&& not32 k.AUDIO_FLAG_CHANNEL_MASK) ||| (index <<< 0) % 2 ^ 32) % 2 ^ 32
    dirty := 1 }

def audio_increment_encoding (k : Platform) (s : Settings) : Settings :=
  let index := (s.audio_flags &&& k.AUDIO_FLAG_ENCODING_MASK) >>> 16
  let index := (index + 1) % 4
  { s with
    audio_flags :=
      ((s.audio_flags &&& not32 k.AUDIO_FLAG_ENCODING_MASK) ||| (index <<< 16) % 2 ^ 32) % 2 ^ 32
    dirty := 1 }

/-- The function `mac_address_generate`; `r0`, `r1`, `r2`, `r3` are the
results of its four calls of `rand`, in call order. -/
def mac_address_generate (r0 r1 r2 r3 : Nat) (s : Settings) : Settings :=
  let r := r0 % 3
  let b12 : Nat × Nat :=
    if r = 0 then (0x50, 0xf2) else if r = 1 then (0x0d, 0x3a) else (0x12, 0x5a)
  { s with
    mac_address := [0x00, b12.1, b12.2, r1 % 256, r2 % 256, r3 % 256]
    dirty := 1 }

def increment_timezone_bios (s : Settings) : Settings :=
  let t := wrapInt32 (s.time_zone_offset - 30)
  { s with time_zone_offset := if t < -720 then 720 else t, dirty := 1 }

/-! ## `query_eeprom` -/

/-- What `ExQueryNonVolatileSetting` does for the menu. `ulong key` is the
outcome of a query into the 4-byte buffer `data`: `some v` when the call
succeeds and stores `v`, `none` when it fails and leaves the buffer as it
was. `ethernet` is the same for the query of `XC_FACTORY_ETHERNET_ADDR` into
the 6 bytes of `mac_address`. -/
structure Store where
  ulong : Key → Option Nat
  ethernet : Option (List Nat)

/-- The content of the local `data` after a query for `key`. -/
def queryULONG (st : Store) (key : Key) (data : Nat) : Nat :=
  match st.ulong key with
  | some v => v % 2 ^ 32
  | none => data

/-- The function `query_eeprom`. The local `data` is declared without an
initialiser; `data0` is what it holds on entry. The results of the calls
are not looked at. -/
def query_eeprom (st : Store) (data0 : Nat) (s : Settings) : Settings :=
  let data := queryULONG st Key.XC_DVD_REGION data0
  let s := { s with dvd_region_index := ((data &&& 0xFF : Nat) : Int) }
  let data := queryULONG st Key.XC_LANGUAGE data
  let s := { s with language_index := ((data &&& 0xFF : Nat) : Int) }
  let data := queryULONG st Key.XC_VIDEO data
  let s := { s with video_flags := data }
  let data := queryULONG st Key.XC_FACTORY_AV_REGION data
  let s := { s with av_region := data }
  let data := queryULONG st Key.XC_TIMEZONE_BIAS data
  let s := { s with time_zone_offset := toInt32 data }
  let data := queryULONG st Key.XC_FACTORY_GAME_REGION data
  let s := { s with game_region_index := data }
  match st.ethernet with
  | some bs => { s with mac_address := (List.range 6).map (fun j => bs.getD j 0 % 256) }
  | none => s

/-! ## Sequences of operations -/

/-- The operations of a menu session: activating the menu (`load`), the
mutators bound to the menu lines, and `apply_settings`; each with what the
outside delivers to it. -/
inductive Op
  | load (st : Store) (data0 : Nat)
  | increment_game_region
  | increment_dvd_region
  | increment_language
  | increment_video_region
  | video_increment_aspect_ratio
  | video_increment_refresh_rate
  | video_toggle_480p
  | video_toggle_720p
  | video_toggle_1080i
  | audio_increment_channel
  | audio_increment_encoding
  | mac_address_generate (r0 r1 r2 r3 : Nat)
  | increment_timezone_bios
  | apply (smbus : Nat → Nat → Nat)

/-- One operation on the settings. -/
def step (k : Platform) (s : Settings) : Op → Settings
  | Op.load st data0 => query_eeprom st data0 s
  | Op.increment_game_region => increment_game_region s
  | Op.increment_dvd_region => increment_dvd_region s
  | Op.increment_language => increment_language s
  | Op.increment_video_region => increment_video_region k s
  | Op.video_increment_aspect_ratio => video_increment_aspect_ratio k s
  | Op.video_increment_refresh_rate => video_increment_refresh_rate k s
  | Op.video_toggle_480p => video_toggle_480p k s
  | Op.video_toggle_720p => video_toggle_720p k s
  | Op.video_toggle_1080i => video_toggle_1080i k s
  | Op.audio_increment_channel => audio_increment_channel k s
  | Op.audio_increment_encoding => audio_increment_encoding k s
  | Op.mac_address_generate r0 r1 r2 r3 => mac_address_generate r0 r1 r2 r3 s
  | Op.increment_timezone_bios => increment_timezone_bios s
  | Op.apply smbus => (apply_settings smbus s).1

/-- A sequence of operations, the first of the list first. -/
def run (k : Platform) (s : Settings) (ops : List Op) : Settings := ops.foldl (step k) s

/-! ## The menu text: `push_line` and `update_eeprom_text` -/

/-- The functions of the file that are passed to `push_line` as callback. -/
inductive Callback
  | apply_settings
  | increment_game_region
  | increment_dvd_region
  | increment_language
  | increment_video_region
  | video_increment_aspect_ratio
  | video_increment_refresh_rate
  | video_toggle_480p
  | video_toggle_720p
  | video_toggle_1080i
  | audio_increment_channel
  | audio_increment_encoding
  | mac_address_generate
  | increment_timezone_bios
  deriving DecidableEq, Repr

/-- An entry of `menu_items` that has been filled in: the text of the line
and the callback, `none` for `NULL`. -/
structure MenuItem where
  label : String
  callback : Option Callback
  deriving DecidableEq, Repr

/-- The array `menu_items`, `none` for an entry zeroed by `memset`, and the
offset `pool_offset` into `char_pool`. -/
structure MenuText where
  menu_items : List (Option MenuItem)
  pool_offset : Nat
  deriving DecidableEq, Repr

/-- The function `push_line`, called with the text that `vsnprintf` formats;
`written` is the length of that text (the text is ASCII). The result is
`none` when one of the two assertions fails. -/
def push_line (m : MenuText) (line : Nat) (callback : Option Callback) (text : String) :
    Option MenuText :=
  let written := text.length
  if line < MAX_LINES ∧ m.pool_offset + (written + 1) < MAX_CHARACTERS then
    some
      { menu_items := m.menu_items.set line (some { label := text, callback := callback })
        pool_offset := m.pool_offset + (written + 1) }
  else none

/-- The conversion `%0wx` of a value below `16 ^ w`: `w` hexadecimal digits. -/
def hexFixed (w n : Nat) : String :=
  String.mk ((List.range w).reverse.map (fun j => Nat.digitChar (n / 16 ^ j % 16)))

/-- The text chosen by `switch (game_region_index)`. -/
def gameRegionText (g : Nat) : String :=
  if g = 0x00000001 then "North America"
  else if g = 0x00000002 then "Japan"
  else if g = 0x00000004 then "Europe and Australia"
  else if g = 0x80000000 then "Manufacturing"
  else "Unknown"

/-- The text chosen by `switch (dvd_region_index)`. -/
def dvdRegionText (v : Int) : String :=
  if v = 0 then "0 None"
  else if v = 1 then "1 USA, Canada"
  else if v = 2 then "2 Europe, Japan, Middle East"
  else if v = 3 then "3 Southeast Asia, South Korea"
  else if v = 4 then "4 Latin America, Australia"
  else if v = 5 then "5 Eastern Europe, Russia, Africa"
  else if v = 6 then "6 China"
  else "Unknown"

/-- The text chosen by `switch (language_index)`. -/
def languageText (v : Int) : String :=
  if v = 0 then "0 Not Set"
  else if v = 1 then "1 English"
  else if v = 2 then "2 Japanese"
  else if v = 3 then "3 German"
  else if v = 4 then "4 French"
  else if v = 5 then "5 Spanish"
  else if v = 6 then "6 Italian"
  else if v = 7 then "7 Korean"
  else if v = 8 then "8 Chinese"
  else if v = 9 then "9 Portuguese"
  else "Unknown"

/-- The text chosen by `switch (av_region)`. -/
def videoRegionText (k : Platform) (r : Nat) : String :=
  if r = k.AV_REGION_NTSC then "NTSC"
  else if r = k.AV_REGION_NTSCJ then "NTSC Japan"
  else if r = k.AV_REGION_PAL then "PAL"
  else if r = k.AV_REGION_PALM then "PAL Brazil"
  else "Invalid Region"

def aspectRatioText (k : Platform) (v : Nat) : String :=
  if v &&& k.VIDEO_WIDESCREEN ≠ 0 then "Widescreen"
  else if v &&& k.VIDEO_LETTERBOX ≠ 0 then "Letterbox"
  else "Normal"

def refreshRateText (k : Platform) (v : Nat) : String :=
  if v &&& k.VIDEO_50Hz ≠ 0 ∧ v &&& k.VIDEO_60Hz ≠ 0 then "50Hz / 60Hz"
  else if v &&& k.VIDEO_50Hz ≠ 0 then "50Hz"
  else if v &&& k.VIDEO_60Hz ≠ 0 then "60Hz"
  else "Not set"

/-- The conversion `[%c]` of `(flags & mode) ? 'x' : ' '`. -/
def checkBoxText (flags mode : Nat) : String :=
  "[" ++ (if flags &&& mode ≠ 0 then "x" else " ") ++ "]"

def channelText (k : Platform) (a : Nat) : String :=
  if a &&& k.AUDIO_FLAG_CHANNEL_MONO ≠ 0 then "Mono"
  else if a &&& k.AUDIO_FLAG_CHANNEL_SURROUND ≠ 0 then "Surround"
  else "Stereo"

def encodingText (k : Platform) (a : Nat) : String :=
  if a &&& k.AUDIO_FLAG_ENCODING_AC3 ≠ 0 ∧ a &&& k.AUDIO_FLAG_ENCODING_DTS ≠ 0 then "AC3 / DTS"
  else if a &&& k.AUDIO_FLAG_ENCODING_AC3 ≠ 0 then "AC3"
  else if a &&& k.AUDIO_FLAG_ENCODING_DTS ≠ 0 then "DTS"
  else "None"

/-- The conversion `%02x:%02x:%02x:%02x:%02x:%02x` of the six bytes of `mac_address`. -/
def macText (mac : List Nat) : String :=
  hexFixed 2 (mac.getD 0 0 % 256) ++ ":" ++ hexFixed 2 (mac.getD 1 0 % 256) ++ ":"
    ++ hexFixed 2 (mac.getD 2 0 % 256) ++ ":" ++ hexFixed 2 (mac.getD 3 0 % 256) ++ ":"
    ++ hexFixed 2 (mac.getD 4 0 % 256) ++ ":" ++ hexFixed 2 (mac.getD 5 0 % 256)

/-- The `push_line` calls of `update_eeprom_text`, in program order: the
callback and the formatted text of each. `hours t` is the text that the
conversion `%.1f` gives for `((float)-t) / 60.0f`; floating point is outside
the embedding. -/
def eepromLines (k : Platform) (hours : Int → String) (s : Settings) :
    List (Option Callback × String) :=
  [ (none, "EEPROM Settings"),
    (some Callback.apply_settings, if s.dirty ≠ 0 then "Apply unsaved changes" else "Apply"),
    (none, "Game Region: " ++ gameRegionText s.game_region_index),
    (some Callback.increment_dvd_region, "DVD Region: " ++ dvdRegionText s.dvd_region_index),
    (some Callback.increment_language, "Language: " ++ languageText s.language_index),
    (some Callback.increment_video_region, "Video Region: " ++ videoRegionText k s.av_region),
    (none, "Video Flags: 0x" ++ hexFixed 8 (s.video_flags % 2 ^ 32)),
    (some Callback.video_increment_aspect_ratio,
      "  Aspect Ratio: " ++ aspectRatioText k s.video_flags),
    (some Callback.video_increment_refresh_rate,
      "  Refresh Rate: " ++ refreshRateText k s.video_flags),
    (some Callback.video_toggle_480p, "  480p: " ++ checkBoxText s.video_flags k.VIDEO_MODE_480P),
    (some Callback.video_toggle_720p, "  720p: " ++ checkBoxText s.video_flags k.VIDEO_MODE_720P),
    (some Callback.video_toggle_1080i,
      "  1080i: " ++ checkBoxText s.video_flags k.VIDEO_MODE_1080I),
    (none, "Audio Flags: 0x" ++ hexFixed 8 (s.audio_flags % 2 ^ 32)),
    (some Callback.audio_increment_channel,
      "  Channel Configuration: " ++ channelText k s.audio_flags),
    (some Callback.audio_increment_encoding, "  Encoding: " ++ encodingText k s.audio_flags),
    (some Callback.mac_address_generate, "MAC Address: " ++ macText s.mac_address),
    (some Callback.increment_timezone_bios,
      "Time Zone Offset: " ++ hours s.time_zone_offset ++ " hours") ]

/-- The calls `push_line(line++, ...)` for a list of lines, from the counter
`line` on; the result is the menu text and the counter after the last call,
`none` when an assertion of `push_line` fails. -/
def pushLines : MenuText → Nat → List (Option Callback × String) → Option (MenuText × Nat)
  | m, line, [] => some (m, line)
  | m, line, p :: rest =>
    match push_line m line p.1 p.2 with
    | some m' => pushLines m' (line + 1) rest
    | none => none

/-- The menu after `update_eeprom_text`: `menu_items`, `pool_offset` and
`menu.item_count`. -/
structure MenuState where
  menu_items : List (Option MenuItem)
  pool_offset : Nat
  item_count : Nat
  deriving DecidableEq, Repr

/-- The function `update_eeprom_text`: `line` and `pool_offset` start at 0,
`menu_items` is zeroed, the lines are pushed and `menu.item_count` becomes
the line counter. -/
def update_eeprom_text (k : Platform) (hours : Int → String) (s : Settings) :
    Option MenuState :=
  match pushLines { menu_items := List.replicate MAX_LINES none, pool_offset := 0 } 0
      (eepromLines k hours s) with
  | some (m, line) =>
    some { menu_items := m.menu_items, pool_offset := m.pool_offset, item_count := line }
  | none => none

/-- The array `menu_items` after the stores of `push_line` for a list of
lines, from index `line` on. -/
def storeLines (items : List (Option MenuItem)) (line : Nat) :
    List (Option Callback × String) → List (Option MenuItem)
  | [] => items
  | p :: rest => storeLines (items.set line (some { label := p.2, callback := p.1 })) (line + 1) rest

/-- The lines of a menu: the first `item_count` entries of `menu_items`,
each with its text and its callback. -/
def MenuState.lines (m : MenuState) : List (Option MenuItem) := m.menu_items.take m.item_count

/-! ## Definitions used to state the properties -/

/-- The content of the local `data` of `query_eeprom` after the queries for
`keys`, issued in that order, when it held `data0` before them. -/
def dataAfter (st : Store) (data0 : Nat) (keys : List Key) : Nat :=
  keys.foldl (fun d key => queryULONG st key d) data0

/-- The mutators: the operations bound to a field line of the menu. -/
def Op.isMutator : Op → Bool
  | Op.load _ _ => false
  | Op.apply _ => false
  | _ => true

/-- The apply operation. -/
def Op.isApply : Op → Bool
  | Op.apply _ => true
  | _ => false

/-- The dirty flag in the words of the spec: at least one mutator has run
since the last apply, or since the start when no apply has run. -/
def mutatorSinceLastApply (ops : List Op) : Bool :=
  (ops.reverse.takeWhile (fun o => !o.isApply)).any Op.isMutator

/-- The effect of `increment_timezone_bios` on `time_zone_offset`. -/
def timezoneNext (t : Int) : Int :=
  if wrapInt32 (t - 30) < -720 then 720 else wrapInt32 (t - 30)

/-- The exact sum of the first `m` 32-bit words of `data`. -/
def wordSum (data : List Nat) (m : Nat) : Nat :=
  ((List.range m).map (word32 data)).sum

/-- The checksum in the words of a plain 64-bit add-all-then-fold: the
words are added up exactly, the high and the low half of the sum are added
and the result is complemented in 32 bits. -/
def crcAddAllThenFold (data : List Nat) (len : Nat) : Nat :=
  not32 ((wordSum data (len / 4) / 2 ^ 32 + wordSum data (len / 4) % 2 ^ 32) % 2 ^ 32)

/-- The 2-bit field of a flag word at bit offset `p`: `(v >> p) & 0x03`. -/
def getField (p v : Nat) : Nat := (v >>> p) &&& 0x03

/-- A flag word with its 2-bit field at bit offset `p` replaced by `g`:
`(v & ~(3 << p)) | (g << p)`. -/
def setField (p v g : Nat) : Nat := (v &&& not32 (3 <<< p)) ||| (g <<< p)

/-- The three aspect states in which the masks are each fully set or fully
clear and not both set: widescreen, letterbox, normal. -/
def AspectCanonical (k : Platform) (v : Nat) : Prop :=
  (v &&& k.VIDEO_WIDESCREEN = k.VIDEO_WIDESCREEN ∧ v &&& k.VIDEO_LETTERBOX = 0)
  ∨ (v &&& k.VIDEO_WIDESCREEN = 0 ∧ v &&& k.VIDEO_LETTERBOX = k.VIDEO_LETTERBOX)
  ∨ (v &&& k.VIDEO_WIDESCREEN = 0 ∧ v &&& k.VIDEO_LETTERBOX = 0)

/-! ## Lemmas on byte buffers -/

theorem sizeof_factory : sizeof eeprom_factory_settings_t = 48 := by decide

theorem offsetof_checksum : offsetof eeprom_factory_settings_t Member.checksum = 0 := by decide

theorem offsetof_mac_address : offsetof eeprom_factory_settings_t Member.mac_address = 16 := by
  decide

theorem offsetof_av_region : offsetof eeprom_factory_settings_t Member.av_region = 40 := by decide

theorem sizeof_checksum : sizeofMember eeprom_factory_settings_t Member.checksum = 4 := by decide

theorem sizeof_mac_address : sizeofMember eeprom_factory_settings_t Member.mac_address = 6 := by
  decide

theorem not32_lt (x : Nat) : not32 x < 2 ^ 32 := by
  unfold not32
  omega

theorem length_storeBytes (bs : List Nat) : ∀ (buf : List Nat) (off : Nat),
    (storeBytes buf off bs).length = buf.length := by
  induction bs with
  | nil => intro buf off; rfl
  | cons b bs ih =>
    intro buf off
    simp [storeBytes, ih]

/-- Byte `i` of a buffer after `storeBytes`: inside the stored range (and
the buffer) it is the stored byte, elsewhere the buffer is unchanged. -/
theorem getElem?_storeBytes (bs : List Nat) : ∀ (buf : List Nat) (off i : Nat),
    (storeBytes buf off bs)[i]? =
      if off ≤ i ∧ i < off + bs.length ∧ i < buf.length then some (bs.getD (i - off) 0 % 256)
      else buf[i]? := by
  induction bs with
  | nil =>
    intro buf off i
    have h : ¬ (off ≤ i ∧ i < off + 0 ∧ i < buf.length) := by omega
    simp only [storeBytes, List.length_nil]
    rw [if_neg h]
  | cons b bs ih =>
    intro buf off i
    simp only [storeBytes, ih, List.length_set, List.length_cons, List.getElem?_set]
    by_cases h1 : off + 1 ≤ i ∧ i < off + 1 + bs.length ∧ i < buf.length
    · have h2 : off ≤ i ∧ i < off + (bs.length + 1) ∧ i < buf.length := by omega
      have h3 : i - off = (i - (off + 1)) + 1 := by omega
      rw [if_pos h1, if_pos h2, h3, List.getD_cons_succ]
    · rw [if_neg h1]
      by_cases h4 : off = i
      · subst h4
        by_cases h5 : off < buf.length
        · have h2 : off ≤ off ∧ off < off + (bs.length + 1) ∧ off < buf.length := by omega
          simp [h5, h2]
        · have h2 : ¬ (off ≤ off ∧ off < off + (bs.length + 1) ∧ off < buf.length) := by omega
          have h6 : buf.length ≤ off := by omega
          simp [h5, h2, List.getElem?_eq_none h6]
      · have h2 : ¬ (off ≤ i ∧ i < off + (bs.length + 1) ∧ i < buf.length) := by omega
        simp [h4, h2]

theorem getD_storeBytes (bs buf : List Nat) (off i : Nat) :
    (storeBytes buf off bs).getD i 0 =
      if off ≤ i ∧ i < off + bs.length ∧ i < buf.length then bs.getD (i - off) 0 % 256
      else buf.getD i 0 := by
  rw [List.getD_eq_getElem?_getD, getElem?_storeBytes]
  split
  · rfl
  · rw [List.getD_eq_getElem?_getD]

theorem bytesLE_four (v : Nat) :
    bytesLE 4 v = [v % 256, v / 256 % 256, v / 65536 % 256, v / 16777216 % 256] := by
  simp [bytesLE, List.range_succ]

theorem length_storeULONG (buf : List Nat) (off v : Nat) :
    (storeULONG buf off v).length = buf.length := length_storeBytes _ _ _

theorem getD_storeULONG_of_lt (buf : List Nat) (off v i : Nat) (h : i < off) :
    (storeULONG buf off v).getD i 0 = buf.getD i 0 := by
  unfold storeULONG
  rw [getD_storeBytes, if_neg (by omega)]

theorem getD_storeULONG_of_ge (buf : List Nat) (off v i : Nat) (h : off + 4 ≤ i) :
    (storeULONG buf off v).getD i 0 = buf.getD i 0 := by
  unfold storeULONG
  rw [getD_storeBytes, if_neg]
  simp [bytesLE]
  omega

theorem getD_storeULONG_at (buf : List Nat) (off v : Nat) (h : off < buf.length) :
    (storeULONG buf off v).getD off 0 = v % 256 := by
  unfold storeULONG
  rw [getD_storeBytes, if_pos, bytesLE_four]
  · simp
  · simp [bytesLE]
    omega

theorem getD_drop (l : List Nat) (n i : Nat) : (l.drop n).getD i 0 = l.getD (n + i) 0 := by
  rw [List.getD_eq_getElem?_getD, List.getD_eq_getElem?_getD, List.getElem?_drop]

theorem getD_storeULONG_in (buf : List Nat) (off v j : Nat) (hj : j < 4)
    (h : off + j < buf.length) :
    (storeULONG buf off v).getD (off + j) 0 = (bytesLE 4 v).getD j 0 % 256 := by
  have hl : (bytesLE 4 v).length = 4 := by simp [bytesLE]
  unfold storeULONG
  rw [getD_storeBytes, if_pos (by omega)]
  congr 2
  omega

/-- The `unsigned int` read back at the offset where one was stored. -/
theorem fieldULONG_storeULONG (buf : List Nat) (off v : Nat) (h : off + 4 ≤ buf.length) :
    fieldULONG (storeULONG buf off v) off = v % 2 ^ 32 := by
  have g0 := getD_storeULONG_in buf off v 0 (by omega) (by omega)
  have g1 := getD_storeULONG_in buf off v 1 (by omega) (by omega)
  have g2 := getD_storeULONG_in buf off v 2 (by omega) (by omega)
  have g3 := getD_storeULONG_in buf off v 3 (by omega) (by omega)
  simp only [fieldULONG, word32, getD_drop]
  rw [g0, g1, g2, g3, bytesLE_four]
  simp only [List.getD_cons_zero, List.getD_cons_succ]
  omega

theorem drop_storeULONG (buf : List Nat) (off v : Nat) :
    (storeULONG buf off v).drop (off + 4) = buf.drop (off + 4) := by
  apply List.ext_getElem?
  intro n
  have hl : (bytesLE 4 v).length = 4 := by simp [bytesLE]
  rw [List.getElem?_drop, List.getElem?_drop, storeULONG, getElem?_storeBytes, hl, if_neg]
  omega

/-! ## Lemmas on the factory block of `apply_settings` -/

theorem readBlock_succ (smbus : Nat → Nat → Nat) (n : Nat) (buf : List Nat) :
    readBlock smbus (n + 1) buf
      = storeULONG (readBlock smbus n buf) n
          (smbus EEPROM_SMBUS_ADDRESS (EEPROM_FACTORY_OFFSET + n)) := by
  simp [readBlock, List.range_succ, List.foldl_append]

theorem length_readBlock (smbus : Nat → Nat → Nat) (n : Nat) (buf : List Nat) :
    (readBlock smbus n buf).length = buf.length := by
  induction n with
  | zero => simp [readBlock]
  | succ n ih => rw [readBlock_succ, length_storeULONG, ih]

/-- After the read loop, every byte below the loop bound holds the low byte
of what the read at its offset delivered: the three bytes that a read
spills over are overwritten by the reads that follow. -/
theorem getD_readBlock (smbus : Nat → Nat → Nat) (n : Nat) (buf : List Nat) (i : Nat)
    (hi : i < n) (hn : n ≤ buf.length) :
    (readBlock smbus n buf).getD i 0
      = smbus EEPROM_SMBUS_ADDRESS (EEPROM_FACTORY_OFFSET + i) % 256 := by
  induction n with
  | zero => omega
  | succ n ih =>
    rw [readBlock_succ]
    by_cases h : i < n
    · rw [getD_storeULONG_of_lt _ _ _ _ h]
      exact ih h (by omega)
    · have e : i = n := by omega
      subst e
      exact getD_storeULONG_at _ _ _ (by rw [length_readBlock]; omega)

theorem length_factoryBlockRead (smbus : Nat → Nat → Nat) :
    (factoryBlockRead smbus).length = 48 := by
  simp [factoryBlockRead, length_readBlock, sizeof_factory]

theorem getD_factoryBlockRead (smbus : Nat → Nat → Nat) (i : Nat) (hi : i < 48) :
    (factoryBlockRead smbus).getD i 0
      = smbus EEPROM_SMBUS_ADDRESS (EEPROM_FACTORY_OFFSET + i) % 256 := by
  unfold factoryBlockRead
  rw [sizeof_factory]
  exact getD_readBlock smbus 48 _ i hi (by simp)

theorem length_factoryBlockOverlay (smbus : Nat → Nat → Nat) (s : Settings) :
    (factoryBlockOverlay smbus s).length = 48 := by
  simp [factoryBlockOverlay, length_storeBytes, length_storeULONG, length_factoryBlockRead]

theorem length_factoryBlockFinal (smbus : Nat → Nat → Nat) (s : Settings) :
    (factoryBlockFinal smbus s).length = 48 := by
  simp [factoryBlockFinal, length_storeULONG, length_factoryBlockOverlay]

theorem map_getD_range (b : List Nat) :
    (List.range b.length).map (fun i => b.getD i 0) = b := by
  apply List.ext_getElem?
  intro n
  rw [List.getElem?_map]
  by_cases h : n < b.length
  · rw [List.getElem?_range h]
    simp [List.getD_eq_getElem?_getD, List.getElem?_eq_getElem h]
  · have h1 : b.length ≤ n := by omega
    rw [List.getElem?_eq_none h1, List.getElem?_eq_none (by simpa using h1)]
    rfl

theorem writtenBytes_append (t u : List Event) :
    writtenBytes (t ++ u) = writtenBytes t ++ writtenBytes u := by
  simp [writtenBytes, List.filterMap_append]

theorem writtenBytes_saveCalls (s : Settings) : writtenBytes (saveCalls s) = [] := by
  simp [writtenBytes, saveCalls]

theorem writtenBytes_readCalls (n : Nat) : writtenBytes (readCalls n) = [] := by
  unfold readCalls
  induction List.range n with
  | nil => rfl
  | cons a l ih => simp [writtenBytes]

theorem writtenBytes_writeCalls (b : List Nat) (n : Nat) :
    writtenBytes (writeCalls b n) = (List.range n).map (fun i => b.getD i 0) := by
  unfold writeCalls
  induction List.range n with
  | nil => rfl
  | cons a l ih => simpa [writtenBytes] using ih

/-- The bytes written back are the bytes of the block after the checksum
assignment, each byte once. -/
theorem writtenBlock_eq (smbus : Nat → Nat → Nat) (s : Settings) :
    writtenBlock smbus s = factoryBlockFinal smbus s := by
  have h := map_getD_range (factoryBlockFinal smbus s)
  rw [length_factoryBlockFinal] at h
  simp only [writtenBlock, apply_settings, writtenBytes_append, writtenBytes_saveCalls,
    writtenBytes_readCalls, writtenBytes_writeCalls, sizeof_factory, List.nil_append]
  exact h

theorem readOffsets_append (t u : List Event) :
    readOffsets (t ++ u) = readOffsets t ++ readOffsets u := by
  simp [readOffsets, List.filterMap_append]

theorem writtenOffsets_append (t u : List Event) :
    writtenOffsets (t ++ u) = writtenOffsets t ++ writtenOffsets u := by
  simp [writtenOffsets, List.filterMap_append]

theorem readOffsets_saveCalls (s : Settings) : readOffsets (saveCalls s) = [] := by
  simp [readOffsets, saveCalls]

theorem writtenOffsets_saveCalls (s : Settings) : writtenOffsets (saveCalls s) = [] := by
  simp [writtenOffsets, saveCalls]

theorem readOffsets_readCalls (n : Nat) :
    readOffsets (readCalls n) = (List.range n).map (fun i => EEPROM_FACTORY_OFFSET + i) := by
  unfold readCalls
  induction List.range n with
  | nil => rfl
  | cons a l ih => simpa [readOffsets] using ih

theorem writtenOffsets_readCalls (n : Nat) : writtenOffsets (readCalls n) = [] := by
  unfold readCalls
  induction List.range n with
  | nil => rfl
  | cons a l ih => simp [writtenOffsets]

theorem readOffsets_writeCalls (b : List Nat) (n : Nat) : readOffsets (writeCalls b n) = [] := by
  unfold writeCalls
  induction List.range n with
  | nil => rfl
  | cons a l ih => simp [readOffsets]

theorem writtenOffsets_writeCalls (b : List Nat) (n : Nat) :
    writtenOffsets (writeCalls b n) = (List.range n).map (fun i => EEPROM_FACTORY_OFFSET + i) := by
  unfold writeCalls
  induction List.range n with
  | nil => rfl
  | cons a l ih => simpa [writtenOffsets] using ih

theorem readOffsets_apply (smbus : Nat → Nat → Nat) (s : Settings) :
    readOffsets (apply_settings smbus s).2
      = (List.range 48).map (fun i => EEPROM_FACTORY_OFFSET + i) := by
  simp only [apply_settings, readOffsets_append, readOffsets_saveCalls, readOffsets_readCalls,
    readOffsets_writeCalls, sizeof_factory, List.nil_append, List.append_nil]

theorem writtenOffsets_apply (smbus : Nat → Nat → Nat) (s : Settings) :
    writtenOffsets (apply_settings smbus s).2
      = (List.range 48).map (fun i => EEPROM_FACTORY_OFFSET + i) := by
  simp only [apply_settings, writtenOffsets_append, writtenOffsets_saveCalls,
    writtenOffsets_readCalls, writtenOffsets_writeCalls, sizeof_factory, List.nil_append,
    List.append_nil]

/-- A byte of the overlaid block outside the AV region and the MAC address
is the byte that was read. -/
theorem getD_factoryBlockOverlay_other (smbus : Nat → Nat → Nat) (s : Settings) (i : Nat)
    (hmac : ¬ (16 ≤ i ∧ i < 22)) (hav : ¬ (40 ≤ i ∧ i < 44)) :
    (factoryBlockOverlay smbus s).getD i 0 = (factoryBlockRead smbus).getD i 0 := by
  simp only [factoryBlockOverlay, offsetof_av_region, offsetof_mac_address, sizeof_mac_address,
    storeULONG]
  rw [getD_storeBytes, if_neg (by simp; omega), getD_storeBytes, if_neg (by simp [bytesLE]; omega)]

/-- The MAC address member of the overlaid block. -/
theorem getD_factoryBlockOverlay_mac (smbus : Nat → Nat → Nat) (s : Settings) (j : Nat)
    (hj : j < 6) :
    (factoryBlockOverlay smbus s).getD (16 + j) 0 = s.mac_address.getD j 0 % 256 := by
  simp only [factoryBlockOverlay, offsetof_av_region, offsetof_mac_address, sizeof_mac_address]
  rw [getD_storeBytes, if_pos (by simp [length_storeULONG, length_factoryBlockRead]; omega)]
  have e : 16 + j - 16 = j := by omega
  rw [e, List.getD_eq_getElem?_getD, List.getElem?_map, List.getElem?_range hj]
  rfl

/-- The bytes of the AV region member of the overlaid block. -/
theorem getD_factoryBlockOverlay_av (smbus : Nat → Nat → Nat) (s : Settings) (j : Nat)
    (hj : j < 4) :
    (factoryBlockOverlay smbus s).getD (40 + j) 0 = (bytesLE 4 s.av_region).getD j 0 % 256 := by
  simp only [factoryBlockOverlay, offsetof_av_region, offsetof_mac_address, sizeof_mac_address]
  rw [getD_storeBytes, if_neg (by simp; omega)]
  exact getD_storeULONG_in _ 40 _ j hj (by rw [length_factoryBlockRead]; omega)

/-- A byte of the written block behind the checksum member is the byte of
the overlaid block. -/
theorem getD_writtenBlock_of_ge (smbus : Nat → Nat → Nat) (s : Settings) (i : Nat)
    (h : 4 ≤ i) :
    (writtenBlock smbus s).getD i 0 = (factoryBlockOverlay smbus s).getD i 0 := by
  rw [writtenBlock_eq, factoryBlockFinal, offsetof_checksum]
  exact getD_storeULONG_of_ge _ 0 _ i (by omega)

/-! ## The factory block written by `apply_settings` -/

/-- C1, as the claim states it, fails: on an EEPROM of zero bytes and the
initial settings the checksum member written back is not the complement of
`xbox_eeprom_crc` over the rest of the written block. -/
theorem C1_checksum_not_complemented_twice :
    fieldULONG (writtenBlock (fun _ _ => 0) Settings.initial) 0
      ≠ not32 (xbox_eeprom_crc ((writtenBlock (fun _ _ => 0) Settings.initial).drop 4) 44) := by
  set_option maxRecDepth 100000 in decide

/-- C1, amended: for every content of the EEPROM and all settings, the
checksum member that `apply_settings` writes back is `xbox_eeprom_crc` of the
44 bytes that follow it in the written block, which are the bytes of the
block after the overlay of the AV region and the MAC address; no further
complement is taken, `xbox_eeprom_crc` being `~(high + low)` already. -/
theorem C1_checksum_is_crc (smbus : Nat → Nat → Nat) (s : Settings) :
    fieldULONG (writtenBlock smbus s) 0 = xbox_eeprom_crc ((writtenBlock smbus s).drop 4) 44
    ∧ (writtenBlock smbus s).drop 4 = (factoryBlockOverlay smbus s).drop 4
    ∧ xbox_eeprom_crc ((writtenBlock smbus s).drop 4) 44
        = not32 ((crcLoop ((writtenBlock smbus s).drop 4) 44).1
            + (crcLoop ((writtenBlock smbus s).drop 4) 44).2) := by
  have hd : (writtenBlock smbus s).drop 4 = (factoryBlockOverlay smbus s).drop 4 := by
    rw [writtenBlock_eq, factoryBlockFinal, offsetof_checksum]
    exact drop_storeULONG _ 0 _
  refine ⟨?_, hd, rfl⟩
  rw [hd, writtenBlock_eq, factoryBlockFinal, offsetof_checksum, sizeof_factory, sizeof_checksum,
    fieldULONG_storeULONG _ 0 _ (by rw [length_factoryBlockOverlay]; omega)]
  exact Nat.mod_eq_of_lt (not32_lt _)

/-- C2, as the claim states it, fails: the struct does not have the six
members of the claim, it is not 32 bytes long, its AV region is not at
offset 24, and an apply on an EEPROM of zero bytes does not issue 32 reads
and 32 writes. -/
theorem C2_block_is_not_32_bytes :
    eeprom_factory_settings_t.map (fun f => (f.name, f.size))
        ≠ [(Member.checksum, 4), (Member.serial_number, 12), (Member.mac_address, 6),
            (Member.padding1, 2), (Member.av_region, 4), (Member.padding2, 4)]
    ∧ sizeof eeprom_factory_settings_t ≠ 32
    ∧ offsetof eeprom_factory_settings_t Member.av_region ≠ 24
    ∧ (readOffsets (apply_settings (fun _ _ => 0) Settings.initial).2).length ≠ 32
    ∧ (writtenOffsets (apply_settings (fun _ _ => 0) Settings.initial).2).length ≠ 32 := by
  set_option maxRecDepth 100000 in decide

/-- C2, amended: the factory block consists, in order, of a 4-byte checksum
(offset 0), a 12-byte serial number (4), the 6-byte MAC address (16), 2
padding bytes (22), a 16-byte online key (24), the 4-byte AV region (40) and
4 trailing padding bytes (44), 48 bytes in all; one apply reads and writes
exactly these 48 offsets, upwards from `EEPROM_FACTORY_OFFSET`. -/
theorem C2_block_layout (smbus : Nat → Nat → Nat) (s : Settings) :
    (layout eeprom_factory_settings_t).map (fun p => (p.1.name, p.1.size, p.2))
        = [(Member.checksum, 4, 0), (Member.serial_number, 12, 4), (Member.mac_address, 6, 16),
            (Member.padding1, 2, 22), (Member.online_key, 16, 24), (Member.av_region, 4, 40),
            (Member.padding2, 4, 44)]
    ∧ sizeof eeprom_factory_settings_t = 48
    ∧ readOffsets (apply_settings smbus s).2 = (List.range 48).map (fun i => 0x30 + i)
    ∧ writtenOffsets (apply_settings smbus s).2 = (List.range 48).map (fun i => 0x30 + i)
    ∧ (writtenBlock smbus s).length = 48 := by
  refine ⟨by decide, by decide, readOffsets_apply smbus s, writtenOffsets_apply smbus s, ?_⟩
  rw [writtenBlock_eq, length_factoryBlockFinal]

/-- C3: for every content of the EEPROM and all settings, the block that
`apply_settings` writes back has the 6 bytes of `mac_address` in its MAC
address member and `av_region` in its AV region member, and every byte
outside the checksum, the MAC address and the AV region (serial number,
padding, online key) is the byte read at the same offset; the `i`-th byte
written goes to the offset the `i`-th byte was read from. -/
theorem C3_written_block_frame (smbus : Nat → Nat → Nat) (s : Settings) :
    (∀ j, j < 6 →
      (writtenBlock smbus s).getD (offsetof eeprom_factory_settings_t Member.mac_address + j) 0
        = s.mac_address.getD j 0 % 256)
    ∧ fieldULONG (writtenBlock smbus s) (offsetof eeprom_factory_settings_t Member.av_region)
        = s.av_region % 2 ^ 32
    ∧ (∀ i, i < sizeof eeprom_factory_settings_t → 4 ≤ i → ¬ (16 ≤ i ∧ i < 22) →
        ¬ (40 ≤ i ∧ i < 44) →
        (writtenBlock smbus s).getD i 0 = (factoryBlockRead smbus).getD i 0
        ∧ (factoryBlockRead smbus).getD i 0
            = smbus EEPROM_SMBUS_ADDRESS (EEPROM_FACTORY_OFFSET + i) % 256)
    ∧ writtenOffsets (apply_settings smbus s).2 = readOffsets (apply_settings smbus s).2 := by
  refine ⟨?_, ?_, ?_, ?_⟩
  · intro j hj
    rw [offsetof_mac_address, getD_writtenBlock_of_ge _ _ _ (by omega)]
    exact getD_factoryBlockOverlay_mac smbus s j hj
  · have g0 := getD_factoryBlockOverlay_av smbus s 0 (by omega)
    have g1 := getD_factoryBlockOverlay_av smbus s 1 (by omega)
    have g2 := getD_factoryBlockOverlay_av smbus s 2 (by omega)
    have g3 := getD_factoryBlockOverlay_av smbus s 3 (by omega)
    simp only [offsetof_av_region, fieldULONG, word32, getD_drop]
    rw [getD_writtenBlock_of_ge _ _ _ (by omega), getD_writtenBlock_of_ge _ _ _ (by omega),
      getD_writtenBlock_of_ge _ _ _ (by omega), getD_writtenBlock_of_ge _ _ _ (by omega),
      g0, g1, g2, g3, bytesLE_four]
    simp only [List.getD_cons_zero, List.getD_cons_succ]
    omega
  · intro i hi h4 hmac hav
    rw [sizeof_factory] at hi
    rw [getD_writtenBlock_of_ge _ _ _ h4, getD_factoryBlockOverlay_other _ _ _ hmac hav]
    exact ⟨rfl, getD_factoryBlockRead smbus i hi⟩
  · rw [readOffsets_apply, writtenOffsets_apply]

/-- C3, at an EEPROM whose byte at offset `c` is `c` and the MAC address
`00:50:f2:01:02:03`: the MAC member is written from the settings and byte 4,
the first of the serial number, is written back as read: `0x34`. -/
theorem C3_written_block_frame_witness :
    (writtenBlock (fun _ c => c) { Settings.initial with mac_address := [0, 0x50, 0xf2, 1, 2, 3] }).getD
        (16 + 1) 0 = 0x50
    ∧ (writtenBlock (fun _ c => c) { Settings.initial with mac_address := [0, 0x50, 0xf2, 1, 2, 3] }).getD
        4 0 = 0x34 := by
  have h := C3_written_block_frame (fun _ c => c)
    { Settings.initial with mac_address := [0, 0x50, 0xf2, 1, 2, 3] }
  refine ⟨?_, ?_⟩
  · have h1 := h.1 1 (by decide)
    rw [offsetof_mac_address] at h1
    rw [h1]
    decide
  · have h2 := h.2.2.1 4 (by decide) (by decide) (by decide) (by decide)
    rw [h2.1, h2.2]
    decide

/-! ## `query_eeprom` -/

theorem and_0xFF (x : Nat) : x &&& 0xFF = x % 256 := by
  exact Nat.and_pow_two_sub_one_eq_mod x 8

/-- C4, as the claim states it, fails: on a store that holds `0x101` for
every key, loading from the initial settings sets `dvd_region_index` and
`language_index` to `1` and leaves `audio_flags` at `0`. -/
theorem C4_load_not_verbatim :
    (Store.mk (fun _ => some 0x101) none).ulong Key.XC_DVD_REGION = some 0x101
    ∧ (query_eeprom (Store.mk (fun _ => some 0x101) none) 0 Settings.initial).dvd_region_index
        ≠ 0x101
    ∧ (Store.mk (fun _ => some 0x101) none).ulong Key.XC_LANGUAGE = some 0x101
    ∧ (query_eeprom (Store.mk (fun _ => some 0x101) none) 0 Settings.initial).language_index
        ≠ 0x101
    ∧ (Store.mk (fun _ => some 0x101) none).ulong Key.XC_AUDIO = some 0x101
    ∧ (query_eeprom (Store.mk (fun _ => some 0x101) none) 0 Settings.initial).audio_flags
        ≠ 0x101 := by
  decide

/-- C4, amended: when the reads of the keys succeed, `query_eeprom` leaves
`dvd_region_index` and `language_index` equal to the low 8 bits of the 32-bit
value the store holds for `XC_DVD_REGION` and `XC_LANGUAGE`, `video_flags`
equal to the 32-bit value held for `XC_VIDEO`, and `time_zone_offset` equal
to the 32-bit value held for `XC_TIMEZONE_BIAS` read as a signed `int`, for
every store content, whatever the settings and the local buffer held. -/
theorem C4_load_scalars (st : Store) (data0 : Nat) (s : Settings) (dvd lang video tz : Nat)
    (hdvd : st.ulong Key.XC_DVD_REGION = some dvd)
    (hlang : st.ulong Key.XC_LANGUAGE = some lang)
    (hvideo : st.ulong Key.XC_VIDEO = some video)
    (htz : st.ulong Key.XC_TIMEZONE_BIAS = some tz) :
    (query_eeprom st data0 s).dvd_region_index = ((dvd % 256 : Nat) : Int)
    ∧ (query_eeprom st data0 s).language_index = ((lang % 256 : Nat) : Int)
    ∧ (query_eeprom st data0 s).video_flags = video % 2 ^ 32
    ∧ (query_eeprom st data0 s).time_zone_offset = toInt32 (tz % 2 ^ 32) := by
  unfold query_eeprom
  cases he : st.ethernet <;>
    simp [queryULONG, hdvd, hlang, hvideo, htz, and_0xFF] <;>
    constructor <;> omega

/-- C4 amended, at a store holding DVD region 3, language 0x109, video flags
0x00400000 and time zone bias 0xFFFFFFC4 (-60). -/
theorem C4_load_scalars_witness :
    (query_eeprom
        (Store.mk (fun key => match key with
          | Key.XC_DVD_REGION => some 3
          | Key.XC_LANGUAGE => some 0x109
          | Key.XC_VIDEO => some 0x00400000
          | Key.XC_TIMEZONE_BIAS => some 0xFFFFFFC4
          | _ => none) none) 0 Settings.initial).dvd_region_index = 3
    ∧ (query_eeprom
        (Store.mk (fun key => match key with
          | Key.XC_DVD_REGION => some 3
          | Key.XC_LANGUAGE => some 0x109
          | Key.XC_VIDEO => some 0x00400000
          | Key.XC_TIMEZONE_BIAS => some 0xFFFFFFC4
          | _ => none) none) 0 Settings.initial).time_zone_offset = -60 := by
  have h := C4_load_scalars
    (Store.mk (fun key => match key with
          | Key.XC_DVD_REGION => some 3
          | Key.XC_LANGUAGE => some 0x109
          | Key.XC_VIDEO => some 0x00400000
          | Key.XC_TIMEZONE_BIAS => some 0xFFFFFFC4
          | _ => none) none) 0 Settings.initial 3 0x109 0x00400000 0xFFFFFFC4 rfl rfl rfl rfl
  refine ⟨?_, ?_⟩
  · rw [h.1]
    decide
  · rw [h.2.2.2]
    decide

/-- C5, as the claim states it, fails: on a store where only the read of
`XC_DVD_REGION` succeeds, with 5, the read of `XC_LANGUAGE` fails and yet
`language_index` ends up 5, not 0. -/
theorem C5_failed_read_not_zero :
    (Store.mk (fun key => if key = Key.XC_DVD_REGION then some 5 else none) none).ulong
        Key.XC_LANGUAGE = none
    ∧ (query_eeprom (Store.mk (fun key => if key = Key.XC_DVD_REGION then some 5 else none) none)
        0 Settings.initial).language_index = 5
    ∧ Settings.initial.language_index = 0 := by
  decide

/-- C5, amended: whenever the read for a key fails, the field is assigned
from the buffer as it was. The six scalar keys share the local `data`, which
at a failed read holds the 32-bit value that the nearest earlier successful
read delivered (its content on entry when there is none): `dvd_region_index`
and `language_index` get its low 8 bits (`& 0xFF`), `video_flags`,
`av_region` and `game_region_index` get it as it is, `time_zone_offset` gets
it read as a signed `int`. The MAC address is read into the variable itself,
which keeps its value. -/
theorem C5_failed_read_keeps_buffer (st : Store) (data0 : Nat) (s : Settings) :
    (st.ulong Key.XC_DVD_REGION = none →
      (query_eeprom st data0 s).dvd_region_index = ((data0 &&& 0xFF : Nat) : Int))
    ∧ (st.ulong Key.XC_LANGUAGE = none →
      (query_eeprom st data0 s).language_index
        = ((dataAfter st data0 [Key.XC_DVD_REGION] &&& 0xFF : Nat) : Int))
    ∧ (st.ulong Key.XC_VIDEO = none →
      (query_eeprom st data0 s).video_flags
        = dataAfter st data0 [Key.XC_DVD_REGION, Key.XC_LANGUAGE])
    ∧ (st.ulong Key.XC_FACTORY_AV_REGION = none →
      (query_eeprom st data0 s).av_region
        = dataAfter st data0 [Key.XC_DVD_REGION, Key.XC_LANGUAGE, Key.XC_VIDEO])
    ∧ (st.ulong Key.XC_TIMEZONE_BIAS = none →
      (query_eeprom st data0 s).time_zone_offset
        = toInt32 (dataAfter st data0
            [Key.XC_DVD_REGION, Key.XC_LANGUAGE, Key.XC_VIDEO, Key.XC_FACTORY_AV_REGION]))
    ∧ (st.ulong Key.XC_FACTORY_GAME_REGION = none →
      (query_eeprom st data0 s).game_region_index
        = dataAfter st data0
            [Key.XC_DVD_REGION, Key.XC_LANGUAGE, Key.XC_VIDEO, Key.XC_FACTORY_AV_REGION,
              Key.XC_TIMEZONE_BIAS])
    ∧ (st.ethernet = none → (query_eeprom st data0 s).mac_address = s.mac_address)
    ∧ dataAfter st data0 [] = data0
    ∧ (∀ (keys : List Key) (key : Key) (v : Nat), st.ulong key = some v →
        dataAfter st data0 (keys ++ [key]) = v % 2 ^ 32)
    ∧ (∀ (keys : List Key) (key : Key), st.ulong key = none →
        dataAfter st data0 (keys ++ [key]) = dataAfter st data0 keys) := by
  refine ⟨?_, ?_, ?_, ?_, ?_, ?_, ?_, rfl, ?_, ?_⟩
  · intro h
    unfold query_eeprom
    cases he : st.ethernet <;> simp_all [queryULONG, dataAfter]
  · intro h
    unfold query_eeprom
    cases he : st.ethernet <;> simp_all [queryULONG, dataAfter]
  · intro h
    unfold query_eeprom
    cases he : st.ethernet <;> simp_all [queryULONG, dataAfter]
  · intro h
    unfold query_eeprom
    cases he : st.ethernet <;> simp_all [queryULONG, dataAfter]
  · intro h
    unfold query_eeprom
    cases he : st.ethernet <;> simp_all [queryULONG, dataAfter]
  · intro h
    unfold query_eeprom
    cases he : st.ethernet <;> simp_all [queryULONG, dataAfter]
  · intro h
    unfold query_eeprom
    cases he : st.ethernet <;> simp_all [queryULONG, dataAfter]
  · intro keys key v h
    simp [dataAfter, List.foldl_append, queryULONG, h]
  · intro keys key h
    simp [dataAfter, List.foldl_append, queryULONG, h]

/-- C5 amended, at a store where only the read of `XC_DVD_REGION` succeeds,
with `0x105`: the failed read of `XC_LANGUAGE` leaves the low 8 bits, 5, the
failed read of `XC_VIDEO` leaves `0x105`, the failed read of the MAC address
leaves it as it was. -/
theorem C5_failed_read_keeps_buffer_witness :
    (query_eeprom (Store.mk (fun key => if key = Key.XC_DVD_REGION then some 0x105 else none) none)
        0 Settings.initial).language_index = 5
    ∧ (query_eeprom (Store.mk (fun key => if key = Key.XC_DVD_REGION then some 0x105 else none) none)
        0 Settings.initial).video_flags = 0x105
    ∧ (query_eeprom (Store.mk (fun key => if key = Key.XC_DVD_REGION then some 0x105 else none) none)
        0 Settings.initial).mac_address = [0, 0, 0, 0, 0, 0] := by
  have h := C5_failed_read_keeps_buffer
    (Store.mk (fun key => if key = Key.XC_DVD_REGION then some 0x105 else none) none) 0
    Settings.initial
  refine ⟨?_, ?_, ?_⟩
  · rw [h.2.1 (by decide)]
    decide
  · rw [h.2.2.1 (by decide)]
    decide
  · rw [h.2.2.2.2.2.2.1 rfl]
    rfl

/-! ## The time zone -/

theorem timezone_iterate (n : Nat) : ∀ s : Settings,
    (increment_timezone_bios^[n] s).time_zone_offset = timezoneNext^[n] s.time_zone_offset := by
  induction n with
  | zero => intro s; rfl
  | succ n ih =>
    intro s
    rw [Function.iterate_succ_apply, Function.iterate_succ_apply, ih]
    rfl

theorem timezoneNext_of_ge (t : Int) (h1 : -690 ≤ t) (h2 : t ≤ 720) :
    timezoneNext t = t - 30 := by
  have e : wrapInt32 (t - 30) = t - 30 := by
    unfold wrapInt32
    omega
  rw [timezoneNext, e, if_neg (by omega)]

theorem timezoneNext_wrap : timezoneNext (-720) = 720 := by decide

/-- While the offset stays at or above -720, `n` steps subtract `30 * n`. -/
theorem timezone_descend (t : Int) (h2 : t ≤ 720) (n : Nat) (h1 : -720 ≤ t - 30 * n) :
    timezoneNext^[n] t = t - 30 * n := by
  induction n with
  | zero => simp
  | succ n ih =>
    rw [Function.iterate_succ_apply', ih (by push_cast at h1; omega),
      timezoneNext_of_ge _ (by push_cast at h1; omega) (by omega)]
    push_cast
    ring

/-- C6, as the claim states it, fails: from the offset 0, a multiple of 30
in [-720, 720], 48 applications of `increment_timezone_bios` end at 30. -/
theorem C6_period_is_not_48 :
    (increment_timezone_bios^[48] Settings.initial).time_zone_offset = 30
    ∧ (increment_timezone_bios^[48] Settings.initial).time_zone_offset
        ≠ Settings.initial.time_zone_offset := by
  set_option maxRecDepth 100000 in decide

/-- C6, amended: `increment_timezone_bios` takes -720 to 720 and 0 to -30,
and from every offset that is a multiple of 30 in [-720, 720] it is 49
successive applications that return to the offset, and no fewer: the cycle
runs through the 49 values 720, 690, ..., -720. -/
theorem C6_timezone_cycle (s : Settings) :
    (s.time_zone_offset = -720 → (increment_timezone_bios s).time_zone_offset = 720)
    ∧ (s.time_zone_offset = 0 → (increment_timezone_bios s).time_zone_offset = -30)
    ∧ (-720 ≤ s.time_zone_offset → s.time_zone_offset ≤ 720 → 30 ∣ s.time_zone_offset →
        (increment_timezone_bios^[49] s).time_zone_offset = s.time_zone_offset
        ∧ ∀ n, 0 < n → n < 49 →
          (increment_timezone_bios^[n] s).time_zone_offset ≠ s.time_zone_offset) := by
  have key : ∀ t : Int, -720 ≤ t → t ≤ 720 → 30 ∣ t → ∀ n : Nat, 0 < n → n ≤ 49 →
      (timezoneNext^[n] t = t ↔ n = 49) := by
    intro t hlo hhi hdvd n hn0 hn
    obtain ⟨q, hq⟩ := hdvd
    by_cases hc : (n : Int) ≤ q + 24
    · rw [timezone_descend t hhi n (by omega)]
      omega
    · obtain ⟨d, hd⟩ : ∃ d : Nat, (d : Int) = q + 24 := ⟨(q + 24).toNat, by omega⟩
      obtain ⟨m, hm⟩ : ∃ m : Nat, n = m + (1 + d) := ⟨n - (1 + d), by omega⟩
      rw [hm, Function.iterate_add_apply, Function.iterate_add_apply,
        timezone_descend t hhi d (by omega)]
      have e : t - 30 * (d : Int) = -720 := by omega
      rw [e, Function.iterate_one, timezoneNext_wrap,
        timezone_descend 720 (by omega) m (by omega)]
      omega
  refine ⟨?_, ?_, ?_⟩
  · intro h
    simp [increment_timezone_bios, h, wrapInt32]
  · intro h
    simp [increment_timezone_bios, h, wrapInt32]
  · intro hlo hhi hdvd
    refine ⟨?_, ?_⟩
    · rw [timezone_iterate]
      exact (key _ hlo hhi hdvd 49 (by omega) (by omega)).2 rfl
    · intro n hn0 hn hcontra
      rw [timezone_iterate] at hcontra
      have := (key _ hlo hhi hdvd n hn0 (by omega)).1 hcontra
      omega

/-- C6 amended, at the offset 0. -/
theorem C6_timezone_cycle_witness :
    (increment_timezone_bios { Settings.initial with time_zone_offset := -720 }).time_zone_offset
        = 720
    ∧ (increment_timezone_bios Settings.initial).time_zone_offset = -30
    ∧ (increment_timezone_bios^[49] Settings.initial).time_zone_offset = 0
    ∧ (increment_timezone_bios^[7] Settings.initial).time_zone_offset ≠ 0 :=
  ⟨(C6_timezone_cycle { Settings.initial with time_zone_offset := -720 }).1 rfl,
   (C6_timezone_cycle Settings.initial).2.1 rfl,
   ((C6_timezone_cycle Settings.initial).2.2 (by decide) (by decide) (by decide)).1,
   ((C6_timezone_cycle Settings.initial).2.2 (by decide) (by decide) (by decide)).2 7
     (by decide) (by decide)⟩

/-! ## The end-to-end scenario -/

/-- C7: after a load from a store that holds DVD region 1, language 1, video
flags 0, audio flags 0 and time zone 0, `increment_dvd_region` and then
`increment_language` leave DVD region 2, language 2 and the dirty flag set;
`apply_settings` then clears the dirty flag and issues exactly the five
saves of `XC_DVD_REGION`, `XC_LANGUAGE`, `XC_VIDEO`, `XC_AUDIO` and
`XC_TIMEZONE_BIAS`, then one read of each of the offsets of the factory block
upwards from `0x30` at device `0xA8`, then one write of each of them in the
same order. The load does not query `XC_AUDIO`, so what the store holds for
it plays no part: the value saved for it is that of `audio_flags` before the
load. -/
theorem C7_end_to_end (st : Store) (data0 : Nat) (s0 : Settings) (smbus : Nat → Nat → Nat)
    (hdvd : st.ulong Key.XC_DVD_REGION = some 1)
    (hlang : st.ulong Key.XC_LANGUAGE = some 1)
    (hvideo : st.ulong Key.XC_VIDEO = some 0)
    (htz : st.ulong Key.XC_TIMEZONE_BIAS = some 0) :
    (increment_language (increment_dvd_region (query_eeprom st data0 s0))).dvd_region_index = 2
    ∧ (increment_language (increment_dvd_region (query_eeprom st data0 s0))).language_index = 2
    ∧ (increment_language (increment_dvd_region (query_eeprom st data0 s0))).dirty = 1
    ∧ (apply_settings smbus
        (increment_language (increment_dvd_region (query_eeprom st data0 s0)))).1.dirty = 0
    ∧ (apply_settings smbus
        (increment_language (increment_dvd_region (query_eeprom st data0 s0)))).2
      = [Event.save Key.XC_DVD_REGION 4 2 4, Event.save Key.XC_LANGUAGE 4 2 4,
          Event.save Key.XC_VIDEO 4 0 4, Event.save Key.XC_AUDIO 4 (s0.audio_flags % 2 ^ 32) 4,
          Event.save Key.XC_TIMEZONE_BIAS 4 0 4]
        ++ (List.range 48).map (fun i => Event.smbusRead 0xA8 (0x30 + i))
        ++ (List.range 48).map (fun i => Event.smbusWrite 0xA8 (0x30 + i)
            ((writtenBlock smbus
              (increment_language (increment_dvd_region (query_eeprom st data0 s0)))).getD i 0))
    := by
  have hq1 : (query_eeprom st data0 s0).dvd_region_index = 1 := by
    unfold query_eeprom
    cases he : st.ethernet <;> simp [queryULONG, hdvd]
  have hq2 : (query_eeprom st data0 s0).language_index = 1 := by
    unfold query_eeprom
    cases he : st.ethernet <;> simp [queryULONG, hlang]
  have hq3 : (query_eeprom st data0 s0).video_flags = 0 := by
    unfold query_eeprom
    cases he : st.ethernet <;> simp [queryULONG, hvideo]
  have hq4 : (query_eeprom st data0 s0).audio_flags = s0.audio_flags := by
    unfold query_eeprom
    cases he : st.ethernet <;> rfl
  have hq5 : (query_eeprom st data0 s0).time_zone_offset = 0 := by
    unfold query_eeprom
    cases he : st.ethernet <;> simp [queryULONG, htz, toInt32]
  have h1 : (increment_language (increment_dvd_region (query_eeprom st data0 s0))).dvd_region_index
      = 2 := by
    simp only [increment_language, increment_dvd_region, hq1]
    decide
  have h2 : (increment_language (increment_dvd_region (query_eeprom st data0 s0))).language_index
      = 2 := by
    simp only [increment_language, increment_dvd_region, hq2]
    decide
  refine ⟨h1, h2, rfl, rfl, ?_⟩
  rw [writtenBlock_eq]
  simp only [apply_settings, saveCalls, readCalls, writeCalls, sizeof_factory, h1, h2,
    EEPROM_SMBUS_ADDRESS, EEPROM_FACTORY_OFFSET]
  simp only [increment_language, increment_dvd_region, hq3, hq4, hq5]
  rfl

/-- C7, at the store that holds 1 for the DVD region and the language and 0
for the other keys, from the initial settings and an EEPROM of zero bytes:
the trace of the apply has 5 + 48 + 48 calls. -/
theorem C7_end_to_end_witness :
    (apply_settings (fun _ _ => 0)
        (increment_language (increment_dvd_region
          (query_eeprom
            (Store.mk (fun key =>
              if key = Key.XC_DVD_REGION ∨ key = Key.XC_LANGUAGE then some 1 else some 0) none)
            0 Settings.initial)))).2.length = 101 := by
  rw [(C7_end_to_end
    (Store.mk (fun key =>
      if key = Key.XC_DVD_REGION ∨ key = Key.XC_LANGUAGE then some 1 else some 0) none)
    0 Settings.initial (fun _ _ => 0) rfl rfl rfl rfl).2.2.2.2]
  simp

/-! ## The dirty flag -/

theorem dirty_of_isMutator (k : Platform) (s : Settings) (op : Op) (h : op.isMutator = true) :
    (step k s op).dirty = 1 := by
  cases op with
  | load st data0 => simp [Op.isMutator] at h
  | apply smbus => simp [Op.isMutator] at h
  | video_increment_aspect_ratio =>
    simp only [step, video_increment_aspect_ratio]
    split_ifs <;> rfl
  | _ => rfl

theorem dirty_apply (k : Platform) (s : Settings) (smbus : Nat → Nat → Nat) :
    (step k s (Op.apply smbus)).dirty = 0 := rfl

theorem dirty_load (k : Platform) (s : Settings) (st : Store) (data0 : Nat) :
    (step k s (Op.load st data0)).dirty = s.dirty := by
  simp only [step, query_eeprom]
  cases st.ethernet <;> rfl

theorem run_append (k : Platform) (s : Settings) (ops : List Op) (op : Op) :
    run k s (ops ++ [op]) = step k (run k s ops) op := by
  simp [run, List.foldl_append]

theorem mutatorSinceLastApply_append (ops : List Op) (op : Op) :
    mutatorSinceLastApply (ops ++ [op])
      = if op.isApply then false else (op.isMutator || mutatorSinceLastApply ops) := by
  unfold mutatorSinceLastApply
  rw [List.reverse_append, List.reverse_singleton, List.singleton_append, List.takeWhile_cons]
  cases h : op.isApply <;> simp

/-- The dirty flag after a sequence of operations from any settings. -/
theorem dirty_run (k : Platform) (s : Settings) (ops : List Op) :
    (run k s ops).dirty
      = if mutatorSinceLastApply ops then 1 else if ops.any Op.isApply then 0 else s.dirty := by
  induction ops using List.reverseRecOn with
  | nil => rfl
  | append_singleton ops op ih =>
    rw [run_append, mutatorSinceLastApply_append, List.any_append]
    cases hm : op.isMutator with
    | true =>
      have ha : op.isApply = false := by
        cases op <;> first | rfl | simp [Op.isMutator] at hm
      rw [dirty_of_isMutator k _ op hm]
      simp [ha]
    | false =>
      cases op with
      | load st data0 => rw [dirty_load, ih]; simp [Op.isApply]
      | apply smbus => rw [dirty_apply]; simp [Op.isApply]
      | _ => simp [Op.isMutator] at hm

/-- C8: over every sequence of operations from the initial settings, the
dirty flag is set exactly when at least one mutator has run since the last
apply (since the start when there is none); every mutator sets it, apply
clears it and load leaves it as it is. -/
theorem C8_dirty_flag (k : Platform) (ops : List Op) :
    (run k Settings.initial ops).dirty = (if mutatorSinceLastApply ops then 1 else 0)
    ∧ (∀ (s : Settings) (op : Op), op.isMutator = true → (step k s op).dirty = 1)
    ∧ (∀ (s : Settings) (smbus : Nat → Nat → Nat), (step k s (Op.apply smbus)).dirty = 0)
    ∧ (∀ (s : Settings) (st : Store) (data0 : Nat),
        (step k s (Op.load st data0)).dirty = s.dirty) := by
  refine ⟨?_, dirty_of_isMutator k, dirty_apply k, dirty_load k⟩
  rw [dirty_run]
  split
  · rfl
  · split <;> rfl

/-- C8, at the step `video_toggle_480p` from the initial settings. -/
theorem C8_dirty_flag_witness :
    (step xboxPlatform Settings.initial Op.video_toggle_480p).dirty = 1 :=
  (C8_dirty_flag xboxPlatform []).2.1 Settings.initial Op.video_toggle_480p rfl

/-! ## The region cycles -/

/-- One step of `increment_video_region`: the search takes the first entry
of the table that equals the current value. -/
theorem av_region_step (k : Platform) (s : Settings) :
    (increment_video_region k s).av_region
      = if s.av_region = k.AV_REGION_NTSC then k.AV_REGION_PAL
        else if s.av_region = k.AV_REGION_PAL then k.AV_REGION_NTSCJ
        else if s.av_region = k.AV_REGION_NTSCJ then k.AV_REGION_PALM
        else k.AV_REGION_NTSC := by
  simp only [increment_video_region, videoRegions, nextIndex, nextIndexFrom,
    List.getD_cons_zero, List.getD_cons_succ, eq_comm]
  split_ifs <;> simp_all

/-- C9: with four distinct AV region constants, starting from NTSC the
increments of `increment_video_region` visit PAL, then NTSC-J, then PAL-M and
the fourth returns to NTSC; from every value that is none of the four
constants one increment yields NTSC. -/
theorem C9_video_region_cycle (k : Platform) (s : Settings) :
    ((videoRegions k).Nodup → s.av_region = k.AV_REGION_NTSC →
      (increment_video_region k s).av_region = k.AV_REGION_PAL
      ∧ ((increment_video_region k)^[2] s).av_region = k.AV_REGION_NTSCJ
      ∧ ((increment_video_region k)^[3] s).av_region = k.AV_REGION_PALM
      ∧ ((increment_video_region k)^[4] s).av_region = k.AV_REGION_NTSC)
    ∧ (s.av_region ≠ k.AV_REGION_NTSC → s.av_region ≠ k.AV_REGION_PAL →
        s.av_region ≠ k.AV_REGION_NTSCJ → s.av_region ≠ k.AV_REGION_PALM →
        (increment_video_region k s).av_region = k.AV_REGION_NTSC) := by
  constructor
  · intro hnd h
    simp only [videoRegions, List.nodup_cons, List.mem_cons, List.mem_singleton, not_or,
      List.not_mem_nil, not_false_eq_true, List.nodup_nil, and_true] at hnd
    obtain ⟨⟨h01, h02, h03⟩, ⟨h12, h13⟩, h23⟩ := hnd
    have s1 : (increment_video_region k s).av_region = k.AV_REGION_PAL := by
      rw [av_region_step, if_pos h]
    have s2 : (increment_video_region k (increment_video_region k s)).av_region
        = k.AV_REGION_NTSCJ := by
      rw [av_region_step, s1, if_neg (Ne.symm h01), if_pos rfl]
    have s3 : (increment_video_region k
        (increment_video_region k (increment_video_region k s))).av_region
        = k.AV_REGION_PALM := by
      rw [av_region_step, s2, if_neg (Ne.symm h02), if_neg (Ne.symm h12), if_pos rfl]
    have s4 : (increment_video_region k (increment_video_region k
        (increment_video_region k (increment_video_region k s)))).av_region
        = k.AV_REGION_NTSC := by
      rw [av_region_step, s3, if_neg (Ne.symm h03), if_neg (Ne.symm h13), if_neg (Ne.symm h23)]
    exact ⟨s1, s2, s3, s4⟩
  · intro h0 h1 h2 h3
    rw [av_region_step, if_neg h0, if_neg h1, if_neg h2]

/-- C9, at the constants of the Xbox kernel headers, from NTSC and from the
value 0 of the static initialiser. -/
theorem C9_video_region_cycle_witness :
    ((increment_video_region xboxPlatform)^[4]
        { Settings.initial with av_region := 0x00400100 }).av_region = 0x00400100
    ∧ (increment_video_region xboxPlatform Settings.initial).av_region = 0x00400100 :=
  ⟨((C9_video_region_cycle xboxPlatform { Settings.initial with av_region := 0x00400100 }).1
      (by decide) rfl).2.2.2,
   (C9_video_region_cycle xboxPlatform Settings.initial).2 (by decide) (by decide) (by decide)
      (by decide)⟩

/-- C10: `increment_game_region` takes North America (1) to Japan (2), Japan
to Europe (4), Europe to Manufacturing (0x80000000) and Manufacturing to
North America; every other value it takes to North America, the entry of
index 0; so the result is always one of the four. -/
theorem C10_game_region_step (s : Settings) :
    (s.game_region_index = 1 → (increment_game_region s).game_region_index = 2)
    ∧ (s.game_region_index = 2 → (increment_game_region s).game_region_index = 4)
    ∧ (s.game_region_index = 4 → (increment_game_region s).game_region_index = 0x80000000)
    ∧ (s.game_region_index = 0x80000000 → (increment_game_region s).game_region_index = 1)
    ∧ (s.game_region_index ∉ [1, 2, 4, 0x80000000] →
        (increment_game_region s).game_region_index = 1)
    ∧ (increment_game_region s).game_region_index ∈ [1, 2, 4, 0x80000000] := by
  have h : (increment_game_region s).game_region_index
      = if s.game_region_index = 1 then 2 else if s.game_region_index = 2 then 4
        else if s.game_region_index = 4 then 0x80000000 else 1 := by
    simp only [increment_game_region, gameRegions, nextIndex, nextIndexFrom, GAME_REGION_NA,
      GAME_REGION_JAPAN, GAME_REGION_EUROPE, GAME_REGION_MANUFACTURING, List.getD_cons_zero,
      List.getD_cons_succ, eq_comm]
    split_ifs <;> simp_all
  rw [h]
  refine ⟨?_, ?_, ?_, ?_, ?_, ?_⟩
  · intro h1; simp [h1]
  · intro h1; simp [h1]
  · intro h1; simp [h1]
  · intro h1; simp [h1]
  · intro h1
    simp only [List.mem_cons, List.mem_singleton, not_or, List.not_mem_nil, or_false] at h1
    simp [h1.1, h1.2.1, h1.2.2.1]
  · split_ifs <;> simp

/-- C10, at Manufacturing, which wraps to North America, and at the value 0
of the static initialiser, which is none of the four. -/
theorem C10_game_region_step_witness :
    (increment_game_region { Settings.initial with game_region_index := 0x80000000 }).game_region_index
        = 1
    ∧ (increment_game_region Settings.initial).game_region_index = 1 :=
  ⟨(C10_game_region_step { Settings.initial with game_region_index := 0x80000000 }).2.2.2.1 rfl,
   (C10_game_region_step Settings.initial).2.2.2.2.1 (by decide)⟩

/-! ## The DVD region -/

theorem dvd_region_iterate (n : Nat) : ∀ s : Settings,
    (increment_dvd_region^[n] s).dvd_region_index
      = (fun v : Int => (wrapInt32 (v + 1)).tmod 7)^[n] s.dvd_region_index := by
  induction n with
  | zero => intro s; rfl
  | succ n ih =>
    intro s
    rw [Function.iterate_succ_apply, Function.iterate_succ_apply, ih]
    rfl

/-- C12: for every `v` in 0..6, `increment_dvd_region` takes the DVD region
`v` to `(v + 1) mod 7`, and seven applications return to `v`. -/
theorem C12_dvd_region_cycle (s : Settings)
    (h0 : 0 ≤ s.dvd_region_index) (h6 : s.dvd_region_index ≤ 6) :
    (increment_dvd_region s).dvd_region_index = (s.dvd_region_index + 1) % 7
    ∧ (increment_dvd_region^[7] s).dvd_region_index = s.dvd_region_index := by
  constructor
  · simp only [increment_dvd_region]
    generalize s.dvd_region_index = v at h0 h6
    interval_cases v <;> decide
  · rw [dvd_region_iterate]
    generalize s.dvd_region_index = v at h0 h6
    interval_cases v <;> decide

/-- C12, at the DVD region 6, which wraps to 0. -/
theorem C12_dvd_region_cycle_witness :
    (increment_dvd_region { Settings.initial with dvd_region_index := 6 }).dvd_region_index = 0
    ∧ (increment_dvd_region^[7]
        { Settings.initial with dvd_region_index := 6 }).dvd_region_index = 6 :=
  C12_dvd_region_cycle { Settings.initial with dvd_region_index := 6 } (by decide) (by decide)

/-! ## The checksum -/

theorem word32_congr (data data' : List Nat) (m : Nat)
    (h : ∀ i, i < 4 * (m + 1) → data.getD i 0 = data'.getD i 0) :
    word32 data m = word32 data' m := by
  unfold word32
  rw [h (4 * m) (by omega), h (4 * m + 1) (by omega), h (4 * m + 2) (by omega),
    h (4 * m + 3) (by omega)]

theorem crcStep_congr (data data' : List Nat) (hl : Nat × Nat) (m : Nat)
    (h : word32 data m = word32 data' m) :
    crcStep data hl m = crcStep data' hl m := by
  unfold crcStep
  rw [h]

theorem foldl_range_congr (f g : Nat × Nat → Nat → Nat × Nat) (m : Nat)
    (h : ∀ i, i < m → ∀ x, f x i = g x i) :
    (List.range m).foldl f (0, 0) = (List.range m).foldl g (0, 0) := by
  induction m with
  | zero => rfl
  | succ m ih =>
    rw [List.range_succ, List.foldl_append, List.foldl_append, ih (fun i hi => h i (by omega))]
    simp only [List.foldl_cons, List.foldl_nil]
    exact h m (by omega) _

theorem crcLoop_congr (data data' : List Nat) (m : Nat)
    (h : ∀ i, i < 4 * m → data.getD i 0 = data'.getD i 0) :
    (List.range m).foldl (crcStep data) (0, 0) = (List.range m).foldl (crcStep data') (0, 0) :=
  foldl_range_congr _ _ m (fun i hi x =>
    crcStep_congr data data' x i (word32_congr data data' i (fun j hj => h j (by omega))))

/-- C13: for every byte sequence and every length, `xbox_eeprom_crc(data,
len)` is `xbox_eeprom_crc(data, len - len % 4)`, and it is the same on every
byte sequence that has the same first `len - len % 4` bytes: the up to 3
remainder bytes play no part. The function is total, there is no error. -/
theorem C13_remainder_ignored (data : List Nat) (len : Nat) :
    xbox_eeprom_crc data len = xbox_eeprom_crc data (len - len % 4)
    ∧ ∀ data' : List Nat, (∀ i, i < len - len % 4 → data.getD i 0 = data'.getD i 0) →
        xbox_eeprom_crc data len = xbox_eeprom_crc data' len := by
  constructor
  · have e : (len - len % 4) / 4 = len / 4 := by omega
    simp only [xbox_eeprom_crc, crcLoop, e]
  · intro data' h
    have e := crcLoop_congr data data' (len / 4) (fun i hi => h i (by omega))
    simp only [xbox_eeprom_crc, crcLoop, e]

/-- C13, at a sequence of 7 bytes and the length 7: the checksum is that of
the first 4 bytes, whatever the last 3 are. -/
theorem C13_remainder_ignored_witness :
    xbox_eeprom_crc [1, 2, 3, 4, 5, 6, 7] 7 = xbox_eeprom_crc [1, 2, 3, 4, 9, 9, 9] 7 :=
  (C13_remainder_ignored [1, 2, 3, 4, 5, 6, 7] 7).2 [1, 2, 3, 4, 9, 9, 9]
    (fun i hi => by
      have h4 : i < 4 := hi
      interval_cases i <;> rfl)

/-! ## The MAC address -/

/-- C14: for all values that `rand` returns, `mac_address_generate` leaves a
MAC address of 6 bytes, the first `0x00`, the second and third one of the
pairs `(0x50, 0xf2)`, `(0x0d, 0x3a)`, `(0x12, 0x5a)` (chosen by the first
random value mod 3), the last three the next three random values mod 256;
no other setting changes but the dirty flag, which is set. -/
theorem C14_mac_address_generate (r0 r1 r2 r3 : Nat) (s : Settings) :
    (mac_address_generate r0 r1 r2 r3 s).mac_address.length = 6
    ∧ (mac_address_generate r0 r1 r2 r3 s).mac_address.getD 0 1 = 0x00
    ∧ ((mac_address_generate r0 r1 r2 r3 s).mac_address.getD 1 0,
        (mac_address_generate r0 r1 r2 r3 s).mac_address.getD 2 0)
        ∈ [(0x50, 0xf2), (0x0d, 0x3a), (0x12, 0x5a)]
    ∧ ((mac_address_generate r0 r1 r2 r3 s).mac_address.getD 1 0,
        (mac_address_generate r0 r1 r2 r3 s).mac_address.getD 2 0)
        = [(0x50, 0xf2), (0x0d, 0x3a), (0x12, 0x5a)].getD (r0 % 3) (0, 0)
    ∧ (mac_address_generate r0 r1 r2 r3 s).mac_address.getD 3 0 = r1 % 256
    ∧ (mac_address_generate r0 r1 r2 r3 s).mac_address.getD 4 0 = r2 % 256
    ∧ (mac_address_generate r0 r1 r2 r3 s).mac_address.getD 5 0 = r3 % 256
    ∧ mac_address_generate r0 r1 r2 r3 s
        = { s with mac_address := (mac_address_generate r0 r1 r2 r3 s).mac_address, dirty := 1 }
    := by
  have h3 : r0 % 3 < 3 := Nat.mod_lt _ (by decide)
  simp only [mac_address_generate]
  generalize r0 % 3 = r at h3
  interval_cases r <;> simp

/-! ## The checksum as an exact sum -/

theorem word32_lt (data : List Nat) (i : Nat) : word32 data i < 2 ^ 32 := by
  unfold word32
  omega

theorem wordSum_succ (data : List Nat) (m : Nat) :
    wordSum data (m + 1) = wordSum data m + word32 data m := by
  unfold wordSum
  exact List.sum_range_succ _ m

theorem wordSum_le (data : List Nat) (m : Nat) : wordSum data m ≤ m * (2 ^ 32 - 1) := by
  induction m with
  | zero => simp [wordSum]
  | succ m ih =>
    have h := word32_lt data m
    rw [wordSum_succ]
    have e : (m + 1) * (2 ^ 32 - 1) = m * (2 ^ 32 - 1) + (2 ^ 32 - 1) := by ring
    omega

/-- The 64-bit value `((uint64_t)high << 32) | low` of two 32-bit halves. -/
theorem shift_or_eq (h l : Nat) (hl : l < 2 ^ 32) : (h <<< 32) ||| l = 2 ^ 32 * h + l := by
  rw [Nat.shiftLeft_eq, Nat.mul_comm, Nat.mul_add_lt_is_or hl]

/-- One iteration of the loop on the two halves of an exact sum `S` that
stays below `2 ^ 64`. -/
theorem crcStep_exact (data : List Nat) (S i : Nat) (hS : S + word32 data i < 2 ^ 64) :
    crcStep data (S / 2 ^ 32, S % 2 ^ 32) i
      = ((S + word32 data i) / 2 ^ 32, (S + word32 data i) % 2 ^ 32) := by
  have hw := word32_lt data i
  have hl : S % 2 ^ 32 < 2 ^ 32 := Nat.mod_lt _ (by norm_num)
  have e1 : (S / 2 ^ 32) <<< 32 ||| S % 2 ^ 32 = S := by
    rw [shift_or_eq _ _ hl]
    exact Nat.div_add_mod S (2 ^ 32)
  simp only [crcStep, e1, Nat.shiftRight_eq_div_pow]
  refine Prod.ext ?_ ?_
  · show (S % 2 ^ 64 + word32 data i) % 2 ^ 64 / 2 ^ 32 % 2 ^ 32 = (S + word32 data i) / 2 ^ 32
    omega
  · show (S % 2 ^ 32 + word32 data i) % 2 ^ 32 = (S + word32 data i) % 2 ^ 32
    omega

/-- After `m` iterations, with `m` at most `2 ^ 32`, `high` and `low` are
the two halves of the exact sum of the first `m` words. -/
theorem crcLoop_exact (data : List Nat) (m : Nat) (hm : m ≤ 2 ^ 32) :
    (List.range m).foldl (crcStep data) (0, 0)
      = (wordSum data m / 2 ^ 32, wordSum data m % 2 ^ 32) := by
  induction m with
  | zero => simp [wordSum]
  | succ m ih =>
    have hle := wordSum_le data (m + 1)
    have hb : (m + 1) * (2 ^ 32 - 1) < 2 ^ 64 := by
      calc (m + 1) * (2 ^ 32 - 1) ≤ 2 ^ 32 * (2 ^ 32 - 1) := Nat.mul_le_mul_right _ hm
        _ < 2 ^ 64 := by norm_num
    rw [wordSum_succ] at hle
    rw [List.range_succ, List.foldl_append, ih (by omega), wordSum_succ]
    simp only [List.foldl_cons, List.foldl_nil]
    exact crcStep_exact data _ m (by omega)

/-- C19: for every sequence of fewer than `2 ^ 32` words, the two-part
accumulation of `xbox_eeprom_crc` returns what a plain add-all-then-fold
returns: with `S` the exact sum of the words, the complement in 32 bits of
`(S / 2 ^ 32 + S % 2 ^ 32) mod 2 ^ 32`; and after each iteration `high` is
`S / 2 ^ 32` and `low` is `S % 2 ^ 32` for the sum `S` of the words so far. -/
theorem C19_crc_is_add_all_then_fold (data : List Nat) (len : Nat) (hn : len / 4 < 2 ^ 32) :
    xbox_eeprom_crc data len = crcAddAllThenFold data len
    ∧ ∀ m, m ≤ len / 4 →
        (List.range m).foldl (crcStep data) (0, 0)
          = (wordSum data m / 2 ^ 32, wordSum data m % 2 ^ 32) := by
  constructor
  · have e := crcLoop_exact data (len / 4) (by omega)
    unfold xbox_eeprom_crc crcAddAllThenFold crcLoop
    rw [e]
    unfold not32
    omega
  · intro m hmle
    exact crcLoop_exact data m (by omega)

/-- C19, at the two words `0xFFFFFFFF` and `0x00000002`, whose sum carries
into the high half: the checksum is `~(1 + 1)`. -/
theorem C19_crc_is_add_all_then_fold_witness :
    xbox_eeprom_crc [0xFF, 0xFF, 0xFF, 0xFF, 0x02, 0x00, 0x00, 0x00] 8 = 0xFFFFFFFD := by
  rw [(C19_crc_is_add_all_then_fold [0xFF, 0xFF, 0xFF, 0xFF, 0x02, 0x00, 0x00, 0x00] 8
    (by decide)).1]
  decide

/-! ## Lemmas on the bits of 32-bit flag words -/

theorem testBit_not32 (x i : Nat) :
    (not32 x).testBit i = (decide (i < 32) && !x.testBit i) := by
  have h : x % 2 ^ 32 < 2 ^ 32 := Nat.mod_lt _ (by norm_num)
  have e : not32 x = 2 ^ 32 - (x % 2 ^ 32 + 1) := by
    unfold not32
    omega
  rw [e, Nat.testBit_two_pow_sub_succ h, Nat.testBit_mod_two_pow]
  by_cases hi : i < 32 <;> simp [hi]

theorem testBit_of_lt32 (v : Nat) (hv : v < 2 ^ 32) (i : Nat) (hi : 32 ≤ i) :
    v.testBit i = false :=
  Nat.testBit_lt_two_pow (lt_of_lt_of_le hv (Nat.pow_le_pow_right (by norm_num) hi))

theorem testBit_of_and_eq_zero (v w : Nat) (h : v &&& w = 0) (i : Nat) :
    (v.testBit i && w.testBit i) = false := by
  rw [← Nat.testBit_and, h, Nat.zero_testBit]

theorem testBit_of_and_eq (v w : Nat) (h : v &&& w = w) (i : Nat) :
    (v.testBit i && w.testBit i) = w.testBit i := by
  rw [← Nat.testBit_and, h]

theorem and_not32_lt (x w : Nat) : x &&& not32 w < 2 ^ 32 :=
  Nat.and_lt_two_pow x (not32_lt w)

theorem and_not32_and_self (x w : Nat) : (x &&& not32 w) &&& w = 0 := by
  apply Nat.eq_of_testBit_eq
  intro i
  rw [Nat.testBit_and, Nat.testBit_and, testBit_not32, Nat.zero_testBit]
  cases x.testBit i <;> cases w.testBit i <;> simp

theorem or_and_self (x w : Nat) : (x ||| w) &&& w = w := by
  apply Nat.eq_of_testBit_eq
  intro i
  rw [Nat.testBit_and, Nat.testBit_or]
  cases x.testBit i <;> cases w.testBit i <;> rfl

theorem or_and_of_disjoint (x l w : Nat) (h : l &&& w = 0) : (x ||| l) &&& w = x &&& w := by
  apply Nat.eq_of_testBit_eq
  intro i
  have hb := testBit_of_and_eq_zero l w h i
  rw [Nat.testBit_and, Nat.testBit_or, Nat.testBit_and]
  cases x.testBit i <;> cases hl : l.testBit i <;> cases hw : w.testBit i <;> simp_all

theorem and_and_of_zero (x m w : Nat) (h : x &&& w = 0) : (x &&& m) &&& w = 0 := by
  apply Nat.eq_of_testBit_eq
  intro i
  have hb := testBit_of_and_eq_zero x w h i
  rw [Nat.testBit_and, Nat.testBit_and, Nat.zero_testBit]
  cases hx : x.testBit i <;> cases m.testBit i <;> cases hw : w.testBit i <;> simp_all

/-- Setting a clear mask and clearing it again gives the word back. -/
theorem or_and_not32_cancel (v w : Nat) (hv : v < 2 ^ 32) (h : v &&& w = 0) :
    (v ||| w) &&& not32 w = v := by
  apply Nat.eq_of_testBit_eq
  intro i
  have hb := testBit_of_and_eq_zero v w h i
  rw [Nat.testBit_and, Nat.testBit_or, testBit_not32]
  by_cases hi : i < 32
  · cases hx : v.testBit i <;> cases hw : w.testBit i <;> simp_all
  · have := testBit_of_lt32 v hv i (by omega)
    simp [hi, this]

/-- Clearing a set mask and setting it again gives the word back. -/
theorem and_not32_or_cancel (v w : Nat) (hv : v < 2 ^ 32) (h : v &&& w = w) :
    (v &&& not32 w) ||| w = v := by
  apply Nat.eq_of_testBit_eq
  intro i
  have hb := testBit_of_and_eq v w h i
  rw [Nat.testBit_or, Nat.testBit_and, testBit_not32]
  by_cases hi : i < 32
  · cases hx : v.testBit i <;> cases hw : w.testBit i <;> simp_all
  · have hx := testBit_of_lt32 v hv i (by omega)
    rw [hx, Bool.false_and] at hb
    simp [hi, hx, ← hb]

theorem and_not32_of_zero (v w : Nat) (hv : v < 2 ^ 32) (h : v &&& w = 0) :
    v &&& not32 w = v := by
  apply Nat.eq_of_testBit_eq
  intro i
  have hb := testBit_of_and_eq_zero v w h i
  rw [Nat.testBit_and, testBit_not32]
  by_cases hi : i < 32
  · cases hx : v.testBit i <;> cases hw : w.testBit i <;> simp_all
  · have := testBit_of_lt32 v hv i (by omega)
    simp [hi, this]

/-! ## The aspect ratio -/

theorem aspect_of_wide (k : Platform) (s : Settings) (hL : k.VIDEO_LETTERBOX < 2 ^ 32)
    (h : s.video_flags &&& k.VIDEO_WIDESCREEN ≠ 0) :
    (video_increment_aspect_ratio k s).video_flags
      = (s.video_flags &&& not32 k.VIDEO_WIDESCREEN) ||| k.VIDEO_LETTERBOX := by
  simp only [video_increment_aspect_ratio, if_pos h]
  exact Nat.mod_eq_of_lt (Nat.or_lt_two_pow (and_not32_lt _ _) hL)

theorem aspect_of_letter (k : Platform) (s : Settings)
    (h1 : s.video_flags &&& k.VIDEO_WIDESCREEN = 0)
    (h2 : s.video_flags &&& k.VIDEO_LETTERBOX ≠ 0) :
    (video_increment_aspect_ratio k s).video_flags
      = s.video_flags &&& not32 k.VIDEO_LETTERBOX := by
  have h1' : ¬ (s.video_flags &&& k.VIDEO_WIDESCREEN ≠ 0) := by simp [h1]
  simp only [video_increment_aspect_ratio, if_neg h1', if_pos h2]

theorem aspect_of_normal (k : Platform) (s : Settings) (hv : s.video_flags < 2 ^ 32)
    (hW : k.VIDEO_WIDESCREEN < 2 ^ 32)
    (h1 : s.video_flags &&& k.VIDEO_WIDESCREEN = 0)
    (h2 : s.video_flags &&& k.VIDEO_LETTERBOX = 0) :
    (video_increment_aspect_ratio k s).video_flags = s.video_flags ||| k.VIDEO_WIDESCREEN := by
  have h1' : ¬ (s.video_flags &&& k.VIDEO_WIDESCREEN ≠ 0) := by simp [h1]
  have h2' : ¬ (s.video_flags &&& k.VIDEO_LETTERBOX ≠ 0) := by simp [h2]
  simp only [video_increment_aspect_ratio, if_neg h1', if_neg h2']
  exact Nat.mod_eq_of_lt (Nat.or_lt_two_pow hv hW)

theorem aspect_lt (k : Platform) (s : Settings) (hv : s.video_flags < 2 ^ 32)
    (hW : k.VIDEO_WIDESCREEN < 2 ^ 32) (hL : k.VIDEO_LETTERBOX < 2 ^ 32) :
    (video_increment_aspect_ratio k s).video_flags < 2 ^ 32 := by
  by_cases h1 : s.video_flags &&& k.VIDEO_WIDESCREEN = 0
  · by_cases h2 : s.video_flags &&& k.VIDEO_LETTERBOX = 0
    · rw [aspect_of_normal k s hv hW h1 h2]
      exact Nat.or_lt_two_pow hv hW
    · rw [aspect_of_letter k s h1 h2]
      exact and_not32_lt _ _
  · rw [aspect_of_wide k s hL h1]
    exact Nat.or_lt_two_pow (and_not32_lt _ _) hL

/-- A bit outside the two masks is left as it is by an aspect step. -/
theorem aspect_testBit (k : Platform) (s : Settings) (hv : s.video_flags < 2 ^ 32) (i : Nat)
    (hWi : k.VIDEO_WIDESCREEN.testBit i = false) (hLi : k.VIDEO_LETTERBOX.testBit i = false) :
    (video_increment_aspect_ratio k s).video_flags.testBit i = s.video_flags.testBit i := by
  have hx : ¬ i < 32 → s.video_flags.testBit i = false :=
    fun hi => testBit_of_lt32 _ hv i (by omega)
  simp only [video_increment_aspect_ratio]
  split_ifs
  · simp only [Nat.testBit_mod_two_pow, Nat.testBit_or, Nat.testBit_and, testBit_not32, hWi, hLi]
    by_cases hi : i < 32
    · simp [hi]
    · simp [hi, hx hi]
  · simp only [Nat.testBit_and, testBit_not32, hLi]
    by_cases hi : i < 32
    · simp [hi]
    · simp [hi, hx hi]
  · simp only [Nat.testBit_mod_two_pow, Nat.testBit_or, hWi]
    by_cases hi : i < 32
    · simp [hi]
    · simp [hi, hx hi]

theorem aspect_from_wide (k : Platform) (s : Settings) (hL : k.VIDEO_LETTERBOX < 2 ^ 32)
    (hW0 : k.VIDEO_WIDESCREEN ≠ 0) (hd : k.VIDEO_WIDESCREEN &&& k.VIDEO_LETTERBOX = 0)
    (h1 : s.video_flags &&& k.VIDEO_WIDESCREEN = k.VIDEO_WIDESCREEN) :
    (video_increment_aspect_ratio k s).video_flags
        = (s.video_flags &&& not32 k.VIDEO_WIDESCREEN) ||| k.VIDEO_LETTERBOX
    ∧ (video_increment_aspect_ratio k s).video_flags &&& k.VIDEO_WIDESCREEN = 0
    ∧ (video_increment_aspect_ratio k s).video_flags &&& k.VIDEO_LETTERBOX
        = k.VIDEO_LETTERBOX := by
  have hd' : k.VIDEO_LETTERBOX &&& k.VIDEO_WIDESCREEN = 0 := by rw [Nat.and_comm]; exact hd
  have e := aspect_of_wide k s hL (by rw [h1]; exact hW0)
  refine ⟨e, ?_, ?_⟩
  · rw [e, or_and_of_disjoint _ _ _ hd', and_not32_and_self]
  · rw [e, or_and_self]

theorem aspect_from_letter (k : Platform) (s : Settings)
    (hL0 : k.VIDEO_LETTERBOX ≠ 0)
    (h1 : s.video_flags &&& k.VIDEO_WIDESCREEN = 0)
    (h2 : s.video_flags &&& k.VIDEO_LETTERBOX = k.VIDEO_LETTERBOX) :
    (video_increment_aspect_ratio k s).video_flags
        = s.video_flags &&& not32 k.VIDEO_LETTERBOX
    ∧ (video_increment_aspect_ratio k s).video_flags &&& k.VIDEO_WIDESCREEN = 0
    ∧ (video_increment_aspect_ratio k s).video_flags &&& k.VIDEO_LETTERBOX = 0 := by
  have e := aspect_of_letter k s h1 (by rw [h2]; exact hL0)
  refine ⟨e, ?_, ?_⟩
  · rw [e, and_and_of_zero _ _ _ h1]
  · rw [e, and_not32_and_self]

theorem aspect_from_normal (k : Platform) (s : Settings) (hv : s.video_flags < 2 ^ 32)
    (hW : k.VIDEO_WIDESCREEN < 2 ^ 32)
    (hd : k.VIDEO_WIDESCREEN &&& k.VIDEO_LETTERBOX = 0)
    (h1 : s.video_flags &&& k.VIDEO_WIDESCREEN = 0)
    (h2 : s.video_flags &&& k.VIDEO_LETTERBOX = 0) :
    (video_increment_aspect_ratio k s).video_flags = s.video_flags ||| k.VIDEO_WIDESCREEN
    ∧ (video_increment_aspect_ratio k s).video_flags &&& k.VIDEO_WIDESCREEN
        = k.VIDEO_WIDESCREEN
    ∧ (video_increment_aspect_ratio k s).video_flags &&& k.VIDEO_LETTERBOX = 0 := by
  have e := aspect_of_normal k s hv hW h1 h2
  refine ⟨e, ?_, ?_⟩
  · rw [e, or_and_self]
  · rw [e, or_and_of_disjoint _ _ _ hd, h2]

/-- From a canonical aspect state the step leads to a canonical state, three
steps lead back to the flags, and one or two steps do not. -/
theorem aspect_cycle (k : Platform) (s : Settings) (hv : s.video_flags < 2 ^ 32)
    (hW : k.VIDEO_WIDESCREEN < 2 ^ 32) (hL : k.VIDEO_LETTERBOX < 2 ^ 32)
    (hW0 : k.VIDEO_WIDESCREEN ≠ 0) (hL0 : k.VIDEO_LETTERBOX ≠ 0)
    (hd : k.VIDEO_WIDESCREEN &&& k.VIDEO_LETTERBOX = 0)
    (hc : AspectCanonical k s.video_flags) :
    AspectCanonical k (video_increment_aspect_ratio k s).video_flags
    ∧ (video_increment_aspect_ratio k (video_increment_aspect_ratio k
        (video_increment_aspect_ratio k s))).video_flags = s.video_flags
    ∧ (video_increment_aspect_ratio k s).video_flags ≠ s.video_flags
    ∧ (video_increment_aspect_ratio k (video_increment_aspect_ratio k s)).video_flags
        ≠ s.video_flags := by
  have hv1 := aspect_lt k s hv hW hL
  have hv2 := aspect_lt k _ hv1 hW hL
  rcases hc with ⟨h1, h2⟩ | ⟨h1, h2⟩ | ⟨h1, h2⟩
  · -- widescreen, then letterbox, then normal
    obtain ⟨e1, a1, b1⟩ := aspect_from_wide k s hL hW0 hd h1
    obtain ⟨e2, a2, b2⟩ := aspect_from_letter k _ hL0 a1 b1
    obtain ⟨e3, a3, b3⟩ := aspect_from_normal k _ hv2 hW hd a2 b2
    refine ⟨Or.inr (Or.inl ⟨a1, b1⟩), ?_, ?_, ?_⟩
    · rw [e3, e2, e1, or_and_not32_cancel _ _ (and_not32_lt _ _)
        (and_and_of_zero _ _ _ h2), and_not32_or_cancel _ _ hv h1]
    · intro h
      rw [h, h1] at a1
      exact hW0 a1
    · intro h
      rw [h, h1] at a2
      exact hW0 a2
  · -- letterbox, then normal, then widescreen
    obtain ⟨e1, a1, b1⟩ := aspect_from_letter k s hL0 h1 h2
    obtain ⟨e2, a2, b2⟩ := aspect_from_normal k _ hv1 hW hd a1 b1
    obtain ⟨e3, a3, b3⟩ := aspect_from_wide k _ hL hW0 hd a2
    refine ⟨Or.inr (Or.inr ⟨a1, b1⟩), ?_, ?_, ?_⟩
    · rw [e3, e2, e1, or_and_not32_cancel _ _ (and_not32_lt _ _)
        (and_and_of_zero _ _ _ h1), and_not32_or_cancel _ _ hv h2]
    · intro h
      rw [h, h2] at b1
      exact hL0 b1
    · intro h
      rw [h, h2] at b2
      exact hL0 b2
  · -- normal, then widescreen, then letterbox
    obtain ⟨e1, a1, b1⟩ := aspect_from_normal k s hv hW hd h1 h2
    obtain ⟨e2, a2, b2⟩ := aspect_from_wide k _ hL hW0 hd a1
    obtain ⟨e3, a3, b3⟩ := aspect_from_letter k _ hL0 a2 b2
    refine ⟨Or.inl ⟨a1, b1⟩, ?_, ?_, ?_⟩
    · rw [e3, e2, e1, or_and_not32_cancel _ _ hv h1]
      exact or_and_not32_cancel _ _ hv h2
    · intro h
      rw [h, h1] at a1
      exact hW0 a1.symm
    · intro h
      rw [h, h2] at b2
      exact hL0 b2.symm

/-- After one aspect step from any 32-bit flags the aspect state is canonical. -/
theorem aspect_canonical_step (k : Platform) (s : Settings)
    (hv : s.video_flags < 2 ^ 32) (hW : k.VIDEO_WIDESCREEN < 2 ^ 32)
    (hL : k.VIDEO_LETTERBOX < 2 ^ 32)
    (hd : k.VIDEO_WIDESCREEN &&& k.VIDEO_LETTERBOX = 0) :
    AspectCanonical k (video_increment_aspect_ratio k s).video_flags := by
  have hd' : k.VIDEO_LETTERBOX &&& k.VIDEO_WIDESCREEN = 0 := by rw [Nat.and_comm]; exact hd
  by_cases h1 : s.video_flags &&& k.VIDEO_WIDESCREEN = 0
  · by_cases h2 : s.video_flags &&& k.VIDEO_LETTERBOX = 0
    · obtain ⟨_, a, b⟩ := aspect_from_normal k s hv hW hd h1 h2
      exact Or.inl ⟨a, b⟩
    · have e := aspect_of_letter k s h1 h2
      refine Or.inr (Or.inr ⟨?_, ?_⟩)
      · rw [e, and_and_of_zero _ _ _ h1]
      · rw [e, and_not32_and_self]
  · have e := aspect_of_wide k s hL h1
    refine Or.inr (Or.inl ⟨?_, ?_⟩)
    · rw [e, or_and_of_disjoint _ _ _ hd', and_not32_and_self]
    · rw [e, or_and_self]

theorem aspect_iterate_lt (k : Platform) (hW : k.VIDEO_WIDESCREEN < 2 ^ 32)
    (hL : k.VIDEO_LETTERBOX < 2 ^ 32) (n : Nat) : ∀ s : Settings, s.video_flags < 2 ^ 32 →
    ((video_increment_aspect_ratio k)^[n] s).video_flags < 2 ^ 32 := by
  induction n with
  | zero => intro s hv; exact hv
  | succ n ih =>
    intro s hv
    rw [Function.iterate_succ_apply']
    exact aspect_lt k _ (ih s hv) hW hL

/-- C11: for all 32-bit video flags with neither the widescreen nor the
letterbox bit set (the two masks being non-zero and disjoint), the first
`video_increment_aspect_ratio` sets widescreen and only it, the second
leaves letterbox set and widescreen clear, the third returns the flags to
exactly the original value; and at every step every bit outside the two
masks is unchanged. -/
theorem C11_aspect_three_cycle (k : Platform) (s : Settings)
    (hv : s.video_flags < 2 ^ 32)
    (hW : k.VIDEO_WIDESCREEN < 2 ^ 32) (hL : k.VIDEO_LETTERBOX < 2 ^ 32)
    (hW0 : k.VIDEO_WIDESCREEN ≠ 0) (hL0 : k.VIDEO_LETTERBOX ≠ 0)
    (hd : k.VIDEO_WIDESCREEN &&& k.VIDEO_LETTERBOX = 0)
    (h1 : s.video_flags &&& k.VIDEO_WIDESCREEN = 0)
    (h2 : s.video_flags &&& k.VIDEO_LETTERBOX = 0) :
    ((video_increment_aspect_ratio k s).video_flags = s.video_flags ||| k.VIDEO_WIDESCREEN
      ∧ (video_increment_aspect_ratio k s).video_flags &&& k.VIDEO_WIDESCREEN
          = k.VIDEO_WIDESCREEN
      ∧ (video_increment_aspect_ratio k s).video_flags &&& k.VIDEO_LETTERBOX = 0)
    ∧ (((video_increment_aspect_ratio k)^[2] s).video_flags
          = s.video_flags ||| k.VIDEO_LETTERBOX
      ∧ ((video_increment_aspect_ratio k)^[2] s).video_flags &&& k.VIDEO_WIDESCREEN = 0
      ∧ ((video_increment_aspect_ratio k)^[2] s).video_flags &&& k.VIDEO_LETTERBOX
          = k.VIDEO_LETTERBOX)
    ∧ ((video_increment_aspect_ratio k)^[3] s).video_flags = s.video_flags
    ∧ ∀ n i, k.VIDEO_WIDESCREEN.testBit i = false → k.VIDEO_LETTERBOX.testBit i = false →
        ((video_increment_aspect_ratio k)^[n] s).video_flags.testBit i
          = s.video_flags.testBit i := by
  obtain ⟨e1, a1, b1⟩ := aspect_from_normal k s hv hW hd h1 h2
  obtain ⟨e2, a2, b2⟩ := aspect_from_wide k (video_increment_aspect_ratio k s) hL hW0 hd a1
  have e2' : (video_increment_aspect_ratio k (video_increment_aspect_ratio k s)).video_flags
      = s.video_flags ||| k.VIDEO_LETTERBOX := by
    rw [e2, e1, or_and_not32_cancel _ _ hv h1]
  refine ⟨⟨e1, a1, b1⟩, ⟨e2', a2, b2⟩, ?_, ?_⟩
  · exact (aspect_cycle k s hv hW hL hW0 hL0 hd (Or.inr (Or.inr ⟨h1, h2⟩))).2.1
  · intro n i hWi hLi
    induction n with
    | zero => rfl
    | succ n ih =>
      rw [Function.iterate_succ_apply',
        aspect_testBit k _ (aspect_iterate_lt k hW hL n s hv) i hWi hLi, ih]

/-- C11, at the masks of the Xbox kernel headers and the flags `0x00400000`
(60Hz): widescreen gives `0x00410000`, letterbox `0x00500000`, and the third
step `0x00400000` again. -/
theorem C11_aspect_three_cycle_witness :
    (video_increment_aspect_ratio xboxPlatform
        { Settings.initial with video_flags := 0x00400000 }).video_flags
      = 0x00400000 ||| 0x00010000
    ∧ ((video_increment_aspect_ratio xboxPlatform)^[3]
        { Settings.initial with video_flags := 0x00400000 }).video_flags = 0x00400000 :=
  ⟨(C11_aspect_three_cycle xboxPlatform { Settings.initial with video_flags := 0x00400000 }
      (by decide) (by decide) (by decide) (by decide) (by decide) (by decide) (by decide)
      (by decide)).1.1,
   (C11_aspect_three_cycle xboxPlatform { Settings.initial with video_flags := 0x00400000 }
      (by decide) (by decide) (by decide) (by decide) (by decide) (by decide) (by decide)
      (by decide)).2.2.1⟩

/-- C20: for all 32-bit video flags, also with both the widescreen and the
letterbox bit set (the two masks being non-zero and disjoint), after one or
more calls of `video_increment_aspect_ratio` at most one of the two is set;
and from there the step runs in a cycle of period exactly 3: three more
steps return to the same flags, one or two more steps do not. -/
theorem C20_aspect_exclusive (k : Platform) (s : Settings)
    (hv : s.video_flags < 2 ^ 32)
    (hW : k.VIDEO_WIDESCREEN < 2 ^ 32) (hL : k.VIDEO_LETTERBOX < 2 ^ 32)
    (hW0 : k.VIDEO_WIDESCREEN ≠ 0) (hL0 : k.VIDEO_LETTERBOX ≠ 0)
    (hd : k.VIDEO_WIDESCREEN &&& k.VIDEO_LETTERBOX = 0) (n : Nat) (hn : 0 < n) :
    ¬ (((video_increment_aspect_ratio k)^[n] s).video_flags &&& k.VIDEO_WIDESCREEN ≠ 0
        ∧ ((video_increment_aspect_ratio k)^[n] s).video_flags &&& k.VIDEO_LETTERBOX ≠ 0)
    ∧ ((video_increment_aspect_ratio k)^[n + 3] s).video_flags
        = ((video_increment_aspect_ratio k)^[n] s).video_flags
    ∧ ((video_increment_aspect_ratio k)^[n + 1] s).video_flags
        ≠ ((video_increment_aspect_ratio k)^[n] s).video_flags
    ∧ ((video_increment_aspect_ratio k)^[n + 2] s).video_flags
        ≠ ((video_increment_aspect_ratio k)^[n] s).video_flags := by
  obtain ⟨m, rfl⟩ : ∃ m, n = m + 1 := ⟨n - 1, by omega⟩
  have hvm := aspect_iterate_lt k hW hL m s hv
  have hc : AspectCanonical k ((video_increment_aspect_ratio k)^[m + 1] s).video_flags := by
    rw [Function.iterate_succ_apply']
    exact aspect_canonical_step k _ hvm hW hL hd
  have hvn := aspect_iterate_lt k hW hL (m + 1) s hv
  obtain ⟨_, c3, c1, c2⟩ := aspect_cycle k _ hvn hW hL hW0 hL0 hd hc
  refine ⟨?_, ?_, ?_, ?_⟩
  · rintro ⟨hw, hl⟩
    rcases hc with ⟨_, b⟩ | ⟨a, _⟩ | ⟨a, _⟩
    · exact hl b
    · exact hw a
    · exact hw a
  · rw [Function.iterate_succ_apply', Function.iterate_succ_apply',
      Function.iterate_succ_apply']
    exact c3
  · rw [Function.iterate_succ_apply']
    exact c1
  · rw [Function.iterate_succ_apply', Function.iterate_succ_apply']
    exact c2

/-- C20, at the masks of the Xbox kernel headers and flags with both bits
set, `0x00110000`: one step leaves letterbox alone, `0x00100000`, and three
more steps return to it. -/
theorem C20_aspect_exclusive_witness :
    ¬ (((video_increment_aspect_ratio xboxPlatform)^[1]
          { Settings.initial with video_flags := 0x00110000 }).video_flags &&& 0x00010000 ≠ 0
        ∧ ((video_increment_aspect_ratio xboxPlatform)^[1]
          { Settings.initial with video_flags := 0x00110000 }).video_flags &&& 0x00100000 ≠ 0)
    ∧ ((video_increment_aspect_ratio xboxPlatform)^[1 + 3]
          { Settings.initial with video_flags := 0x00110000 }).video_flags
        = ((video_increment_aspect_ratio xboxPlatform)^[1]
          { Settings.initial with video_flags := 0x00110000 }).video_flags :=
  ⟨(C20_aspect_exclusive xboxPlatform { Settings.initial with video_flags := 0x00110000 }
      (by decide) (by decide) (by decide) (by decide) (by decide) (by decide) 1 (by decide)).1,
   (C20_aspect_exclusive xboxPlatform { Settings.initial with video_flags := 0x00110000 }
      (by decide) (by decide) (by decide) (by decide) (by decide) (by decide) 1 (by decide)).2.1⟩

/-! ## Two-bit fields of a flag word -/

theorem testBit_three (j : Nat) : (3 : Nat).testBit j = decide (j < 2) :=
  Nat.testBit_two_pow_sub_one 2 j

theorem testBit_of_lt_four (g : Nat) (hg : g < 4) (j : Nat) (hj : 2 ≤ j) :
    g.testBit j = false :=
  Nat.testBit_lt_two_pow (lt_of_lt_of_le hg (by
    calc 4 = 2 ^ 2 := by norm_num
      _ ≤ 2 ^ j := Nat.pow_le_pow_right (by norm_num) hj))

/-- Bit `i` of a word whose 2-bit field at offset `p` has been set to `g`. -/
theorem testBit_setField (p v g : Nat) (hp : p + 2 ≤ 32) (hv : v < 2 ^ 32) (hg : g < 4)
    (i : Nat) :
    (setField p v g).testBit i
      = if p ≤ i ∧ i < p + 2 then g.testBit (i - p) else v.testBit i := by
  unfold setField
  rw [Nat.testBit_or, Nat.testBit_and, testBit_not32, Nat.testBit_shiftLeft,
    Nat.testBit_shiftLeft, testBit_three]
  by_cases h1 : p ≤ i
  · by_cases h2 : i < p + 2
    · have h3 : i - p < 2 := by omega
      have h4 : i < 32 := by omega
      simp [h1, h2, h3, h4]
    · have h3 : ¬ i - p < 2 := by omega
      have h5 : g.testBit (i - p) = false := testBit_of_lt_four g hg _ (by omega)
      by_cases h4 : i < 32
      · simp [h1, h2, h3, h4, h5]
      · have h6 := testBit_of_lt32 v hv i (by omega)
        simp [h1, h2, h3, h4, h5, h6]
  · have h2 : ¬ (p ≤ i ∧ i < p + 2) := by omega
    have h4 : i < 32 := by omega
    simp [h1, h4]

theorem setField_lt (p v g : Nat) (hp : p + 2 ≤ 32) (hv : v < 2 ^ 32) (hg : g < 4) :
    setField p v g < 2 ^ 32 := by
  apply Nat.lt_pow_two_of_testBit
  intro i hi
  rw [testBit_setField p v g hp hv hg, if_neg (by omega)]
  exact testBit_of_lt32 v hv i hi

theorem shiftLeft_lt (p g : Nat) (hp : p + 2 ≤ 32) (hg : g < 4) : g <<< p < 2 ^ 32 := by
  apply Nat.lt_pow_two_of_testBit
  intro i hi
  rw [Nat.testBit_shiftLeft]
  have h5 : g.testBit (i - p) = false := testBit_of_lt_four g hg _ (by omega)
  simp [h5]

theorem getField_lt (p v : Nat) : getField p v < 4 := by
  unfold getField
  exact Nat.and_lt_two_pow _ (by norm_num : 3 < 2 ^ 2)

theorem testBit_getField (p v j : Nat) :
    (getField p v).testBit j = (decide (j < 2) && v.testBit (p + j)) := by
  unfold getField
  rw [Nat.testBit_and, Nat.testBit_shiftRight, testBit_three, Bool.and_comm]

/-- The field that has been set is the field that is read. -/
theorem getField_setField (p v g : Nat) (hp : p + 2 ≤ 32) (hv : v < 2 ^ 32) (hg : g < 4) :
    getField p (setField p v g) = g := by
  apply Nat.eq_of_testBit_eq
  intro j
  rw [testBit_getField, testBit_setField p v g hp hv hg]
  by_cases hj : j < 2
  · have h : p ≤ p + j ∧ p + j < p + 2 := by omega
    have e : p + j - p = j := by omega
    simp [hj, h, e]
  · have h5 : g.testBit j = false := testBit_of_lt_four g hg _ (by omega)
    simp [hj, h5]

/-- Setting the field to what it holds changes nothing. -/
theorem setField_getField (p v : Nat) (hp : p + 2 ≤ 32) (hv : v < 2 ^ 32) :
    setField p v (getField p v) = v := by
  apply Nat.eq_of_testBit_eq
  intro i
  rw [testBit_setField p v _ hp hv (getField_lt p v), testBit_getField]
  by_cases h : p ≤ i ∧ i < p + 2
  · have h3 : i - p < 2 := by omega
    have e : p + (i - p) = i := by omega
    simp [h, h3, e]
  · simp [h]

/-- Setting the field twice is setting it to the last value. -/
theorem setField_setField (p v g g' : Nat) (hp : p + 2 ≤ 32) (hv : v < 2 ^ 32) (hg : g < 4)
    (hg' : g' < 4) : setField p (setField p v g) g' = setField p v g' := by
  apply Nat.eq_of_testBit_eq
  intro i
  rw [testBit_setField p _ g' hp (setField_lt p v g hp hv hg) hg',
    testBit_setField p v g' hp hv hg', testBit_setField p v g hp hv hg]
  by_cases h : p ≤ i ∧ i < p + 2
  · simp [h]
  · simp [h]

/-! ## The refresh rate and the audio channel -/

/-- One step of `video_increment_refresh_rate` when the 50Hz and 60Hz flags
are bits 22 and 23. -/
theorem refresh_step (k : Platform) (s : Settings)
    (hmask : k.VIDEO_50Hz ||| k.VIDEO_60Hz = 0x00C00000) (hv : s.video_flags < 2 ^ 32) :
    (video_increment_refresh_rate k s).video_flags
        = setField 22 s.video_flags ((getField 22 s.video_flags + 1) % 4)
    ∧ (video_increment_refresh_rate k s).video_flags < 2 ^ 32
    ∧ getField 22 (video_increment_refresh_rate k s).video_flags
        = (getField 22 s.video_flags + 1) % 4 := by
  have hg : (getField 22 s.video_flags + 1) % 4 < 4 := Nat.mod_lt _ (by norm_num)
  have hlt := setField_lt 22 s.video_flags _ (by norm_num) hv hg
  have e : (video_increment_refresh_rate k s).video_flags
      = setField 22 s.video_flags ((getField 22 s.video_flags + 1) % 4) := by
    have e3 : (0x00C00000 : Nat) = 3 <<< 22 := by decide
    have eg : (s.video_flags >>> 22) &&& 0x03 = getField 22 s.video_flags := rfl
    simp only [video_increment_refresh_rate, hmask, eg]
    rw [e3, Nat.mod_eq_of_lt (shiftLeft_lt 22 _ (by norm_num) hg)]
    exact Nat.mod_eq_of_lt hlt
  refine ⟨e, ?_, ?_⟩
  · rw [e]
    exact hlt
  · rw [e]
    exact getField_setField 22 _ _ (by norm_num) hv hg

/-- C17: for all 32-bit video flags, the 50Hz and 60Hz flags together being
exactly bits 22 and 23, one `video_increment_refresh_rate` leaves the 2-bit
field at bits 22-23 equal to the old field value plus 1 mod 4 and every
other bit as it was; four steps restore the video flags. -/
theorem C17_refresh_rate_step (k : Platform) (s : Settings)
    (hmask : k.VIDEO_50Hz ||| k.VIDEO_60Hz = 0x00C00000) (hv : s.video_flags < 2 ^ 32) :
    ((video_increment_refresh_rate k s).video_flags >>> 22) &&& 0x03
        = (((s.video_flags >>> 22) &&& 0x03) + 1) % 4
    ∧ (∀ i, i ≠ 22 → i ≠ 23 →
        (video_increment_refresh_rate k s).video_flags.testBit i = s.video_flags.testBit i)
    ∧ ((video_increment_refresh_rate k)^[4] s).video_flags = s.video_flags := by
  obtain ⟨e1, l1, g1⟩ := refresh_step k s hmask hv
  obtain ⟨e2, l2, g2⟩ := refresh_step k _ hmask l1
  obtain ⟨e3, l3, g3⟩ := refresh_step k _ hmask l2
  obtain ⟨e4, _, _⟩ := refresh_step k _ hmask l3
  have hg0 := getField_lt 22 s.video_flags
  refine ⟨g1, ?_, ?_⟩
  · intro i h22 h23
    rw [e1, testBit_setField 22 _ _ (by norm_num) hv (Nat.mod_lt _ (by norm_num)),
      if_neg (by omega)]
  · have hp : 22 + 2 ≤ 32 := by norm_num
    have hq : ∀ x : Nat, (x + 1) % 4 < 4 := fun x => Nat.mod_lt _ (by norm_num)
    have hcyc : ((((getField 22 s.video_flags + 1) % 4 + 1) % 4 + 1) % 4 + 1) % 4
        = getField 22 s.video_flags := by omega
    show (video_increment_refresh_rate k (video_increment_refresh_rate k
      (video_increment_refresh_rate k (video_increment_refresh_rate k s)))).video_flags
        = s.video_flags
    rw [e4, g3, g2, g1, e3, setField_setField 22 _ _ _ hp l2 (hq _) (hq _), e2,
      setField_setField 22 _ _ _ hp l1 (hq _) (hq _), e1,
      setField_setField 22 _ _ _ hp hv (hq _) (hq _), hcyc,
      setField_getField 22 _ hp hv]

/-- C17, at the flags of the Xbox kernel headers and the video flags
`0x00C10000` (50Hz and 60Hz, widescreen): the field wraps from 3 to 0 and
four steps return to the flags. -/
theorem C17_refresh_rate_step_witness :
    ((video_increment_refresh_rate xboxPlatform
        { Settings.initial with video_flags := 0x00C10000 }).video_flags >>> 22) &&& 0x03
        = (((0x00C10000 >>> 22) &&& 0x03) + 1) % 4
    ∧ ((video_increment_refresh_rate xboxPlatform)^[4]
        { Settings.initial with video_flags := 0x00C10000 }).video_flags = 0x00C10000 :=
  ⟨(C17_refresh_rate_step xboxPlatform { Settings.initial with video_flags := 0x00C10000 }
      (by decide) (by decide)).1,
   (C17_refresh_rate_step xboxPlatform { Settings.initial with video_flags := 0x00C10000 }
      (by decide) (by decide)).2.2⟩

/-- One step of `audio_increment_channel` when the channel mask is bits 0
and 1 and the channel field holds at most 2. -/
theorem channel_step (k : Platform) (s : Settings)
    (hmask : k.AUDIO_FLAG_CHANNEL_MASK = 0x00000003) (ha : s.audio_flags < 2 ^ 32) :
    (audio_increment_channel k s).audio_flags
        = setField 0 s.audio_flags ((getField 0 s.audio_flags + 1) % 3)
    ∧ (audio_increment_channel k s).audio_flags < 2 ^ 32
    ∧ getField 0 (audio_increment_channel k s).audio_flags
        = (getField 0 s.audio_flags + 1) % 3 := by
  have hg : (getField 0 s.audio_flags + 1) % 3 < 4 :=
    lt_trans (Nat.mod_lt _ (by norm_num)) (by norm_num)
  have hlt := setField_lt 0 s.audio_flags _ (by norm_num) ha hg
  have e : (audio_increment_channel k s).audio_flags
      = setField 0 s.audio_flags ((getField 0 s.audio_flags + 1) % 3) := by
    have e3 : (0x00000003 : Nat) = 3 <<< 0 := by decide
    have e0 : (s.audio_flags &&& 0x00000003) >>> 0 = getField 0 s.audio_flags := by
      simp only [getField, Nat.shiftRight_zero]
    simp only [audio_increment_channel, hmask, e0]
    rw [Nat.mod_eq_of_lt (shiftLeft_lt 0 _ (by norm_num) hg)]
    exact Nat.mod_eq_of_lt hlt
  refine ⟨e, ?_, ?_⟩
  · rw [e]
    exact hlt
  · rw [e]
    exact getField_setField 0 _ _ (by norm_num) ha hg

/-- C18: for all 32-bit audio flags whose channel field, bits 0-1 (the
channel mask being 3), holds a value `v` in 0..2, one
`audio_increment_channel` leaves the channel field equal to `(v + 1) mod 3`
and every other bit, the encoding field at bits 16-17 among them, as it was;
three steps restore the audio flags. -/
theorem C18_audio_channel_step (k : Platform) (s : Settings)
    (hmask : k.AUDIO_FLAG_CHANNEL_MASK = 0x00000003) (ha : s.audio_flags < 2 ^ 32)
    (hv : s.audio_flags &&& 0x03 ≤ 2) :
    (audio_increment_channel k s).audio_flags &&& 0x03 = ((s.audio_flags &&& 0x03) + 1) % 3
    ∧ (∀ i, 2 ≤ i →
        (audio_increment_channel k s).audio_flags.testBit i = s.audio_flags.testBit i)
    ∧ ((audio_increment_channel k s).audio_flags >>> 16) &&& 0x03
        = (s.audio_flags >>> 16) &&& 0x03
    ∧ ((audio_increment_channel k)^[3] s).audio_flags = s.audio_flags := by
  have hgf : ∀ a : Nat, a &&& 0x03 = getField 0 a := fun a => by
    simp only [getField, Nat.shiftRight_zero]
  rw [hgf] at hv
  obtain ⟨e1, l1, g1⟩ := channel_step k s hmask ha
  obtain ⟨e2, l2, g2⟩ := channel_step k _ hmask l1
  obtain ⟨e3, _, _⟩ := channel_step k _ hmask l2
  have hbits : ∀ i, 2 ≤ i →
      (audio_increment_channel k s).audio_flags.testBit i = s.audio_flags.testBit i := by
    intro i hi
    rw [e1, testBit_setField 0 _ _ (by norm_num) ha
      (lt_trans (Nat.mod_lt _ (by norm_num)) (by norm_num)), if_neg (by omega)]
  refine ⟨?_, hbits, ?_, ?_⟩
  · rw [hgf, hgf]
    exact g1
  · apply Nat.eq_of_testBit_eq
    intro j
    have t1 := testBit_getField 16 (audio_increment_channel k s).audio_flags j
    have t2 := testBit_getField 16 s.audio_flags j
    unfold getField at t1 t2
    rw [t1, t2, hbits (16 + j) (by omega)]
  · have hp : 0 + 2 ≤ 32 := by norm_num
    have hq : ∀ x : Nat, (x + 1) % 3 < 4 := fun x =>
      lt_trans (Nat.mod_lt _ (by norm_num)) (by norm_num)
    have hcyc : (((getField 0 s.audio_flags + 1) % 3 + 1) % 3 + 1) % 3
        = getField 0 s.audio_flags := by omega
    show (audio_increment_channel k (audio_increment_channel k
      (audio_increment_channel k s))).audio_flags = s.audio_flags
    rw [e3, g2, g1, e2, setField_setField 0 _ _ _ hp l1 (hq _) (hq _), e1,
      setField_setField 0 _ _ _ hp ha (hq _) (hq _), hcyc, setField_getField 0 _ hp ha]

/-- C18, at the channel mask of the Xbox kernel headers and the audio flags
`0x00030002` (surround, AC3 and DTS): the channel wraps from 2 to 0, the
encoding field stays, and three steps return to the flags. -/
theorem C18_audio_channel_step_witness :
    (audio_increment_channel xboxPlatform
        { Settings.initial with audio_flags := 0x00030002 }).audio_flags &&& 0x03
        = ((0x00030002 &&& 0x03) + 1) % 3
    ∧ ((audio_increment_channel xboxPlatform)^[3]
        { Settings.initial with audio_flags := 0x00030002 }).audio_flags = 0x00030002 :=
  ⟨(C18_audio_channel_step xboxPlatform { Settings.initial with audio_flags := 0x00030002 }
      (by decide) (by decide) (by decide)).1,
   (C18_audio_channel_step xboxPlatform { Settings.initial with audio_flags := 0x00030002 }
      (by decide) (by decide) (by decide)).2.2.2⟩

/-! ## Lemmas on the menu text -/

/-- The size that a list of lines takes in `char_pool`: the length of each
text and one terminator per line. -/
theorem pushLines_eq_some (ls : List (Option Callback × String)) :
    ∀ (m : MenuText) (line : Nat), line + ls.length ≤ MAX_LINES →
      m.pool_offset + (ls.map (fun p => p.2.length + 1)).sum < MAX_CHARACTERS →
      pushLines m line ls
        = some ({ menu_items := storeLines m.menu_items line ls
                  pool_offset := m.pool_offset + (ls.map (fun p => p.2.length + 1)).sum },
                line + ls.length) := by
  induction ls with
  | nil =>
    intro m line _ _
    simp [pushLines, storeLines]
  | cons p rest ih =>
    intro m line hl hp
    simp only [List.length_cons, List.map_cons, List.sum_cons] at hl hp
    have h1 : line < MAX_LINES ∧ m.pool_offset + (p.2.length + 1) < MAX_CHARACTERS := by
      constructor <;> omega
    simp only [pushLines, push_line, if_pos h1]
    rw [ih _ (line + 1) (by omega) (by simp only []; omega)]
    simp only [storeLines, List.length_cons, List.map_cons, List.sum_cons]
    congr 2
    · congr 1
      omega
    · omega

theorem length_hexFixed (w n : Nat) : (hexFixed w n).length = w := by
  simp [hexFixed, String.length]

theorem length_gameRegionText (g : Nat) : (gameRegionText g).length ≤ 20 := by
  unfold gameRegionText
  split_ifs <;> decide

theorem length_dvdRegionText (v : Int) : (dvdRegionText v).length ≤ 32 := by
  unfold dvdRegionText
  split_ifs <;> decide

theorem length_languageText (v : Int) : (languageText v).length ≤ 12 := by
  unfold languageText
  split_ifs <;> decide

theorem length_videoRegionText (k : Platform) (r : Nat) : (videoRegionText k r).length ≤ 14 := by
  unfold videoRegionText
  split_ifs <;> decide

theorem length_aspectRatioText (k : Platform) (v : Nat) : (aspectRatioText k v).length ≤ 10 := by
  unfold aspectRatioText
  split_ifs <;> decide

theorem length_refreshRateText (k : Platform) (v : Nat) : (refreshRateText k v).length ≤ 11 := by
  unfold refreshRateText
  split_ifs <;> decide

theorem length_checkBoxText (flags mode : Nat) : (checkBoxText flags mode).length = 3 := by
  unfold checkBoxText
  split_ifs <;> decide

theorem length_channelText (k : Platform) (a : Nat) : (channelText k a).length ≤ 8 := by
  unfold channelText
  split_ifs <;> decide

theorem length_encodingText (k : Platform) (a : Nat) : (encodingText k a).length ≤ 9 := by
  unfold encodingText
  split_ifs <;> decide

theorem length_macText (mac : List Nat) : (macText mac).length = 17 := by
  have h : (":" : String).length = 1 := by decide
  simp only [macText, String.length_append, length_hexFixed, h]

theorem length_applyText (d : Int) :
    (if d ≠ 0 then "Apply unsaved changes" else "Apply" : String).length ≤ 21 := by
  split_ifs <;> decide

theorem length_eepromLines (k : Platform) (hours : Int → String) (s : Settings) :
    (eepromLines k hours s).length = 17 := rfl

/-- The size of the 17 lines in `char_pool`: at most 421 bytes and the
length of the `%.1f` conversion. -/
theorem size_eepromLines (k : Platform) (hours : Int → String) (s : Settings) :
    ((eepromLines k hours s).map (fun p => p.2.length + 1)).sum
      ≤ 421 + (hours s.time_zone_offset).length := by
  have a1 := length_applyText s.dirty
  have a2 := length_gameRegionText s.game_region_index
  have a3 := length_dvdRegionText s.dvd_region_index
  have a4 := length_languageText s.language_index
  have a5 := length_videoRegionText k s.av_region
  have a6 := length_aspectRatioText k s.video_flags
  have a7 := length_refreshRateText k s.video_flags
  have a8 := length_channelText k s.audio_flags
  have a9 := length_encodingText k s.audio_flags
  have c0 : ("EEPROM Settings" : String).length = 15 := by decide
  have c2 : ("Game Region: " : String).length = 13 := by decide
  have c3 : ("DVD Region: " : String).length = 12 := by decide
  have c4 : ("Language: " : String).length = 10 := by decide
  have c5 : ("Video Region: " : String).length = 14 := by decide
  have c6 : ("Video Flags: 0x" : String).length = 15 := by decide
  have c7 : ("  Aspect Ratio: " : String).length = 16 := by decide
  have c8 : ("  Refresh Rate: " : String).length = 16 := by decide
  have c9 : ("  480p: " : String).length = 8 := by decide
  have c10 : ("  720p: " : String).length = 8 := by decide
  have c11 : ("  1080i: " : String).length = 9 := by decide
  have c12 : ("Audio Flags: 0x" : String).length = 15 := by decide
  have c13 : ("  Channel Configuration: " : String).length = 25 := by decide
  have c14 : ("  Encoding: " : String).length = 12 := by decide
  have c15 : ("MAC Address: " : String).length = 13 := by decide
  have c16 : ("Time Zone Offset: " : String).length = 18 := by decide
  have c17 : (" hours" : String).length = 6 := by decide
  simp only [eepromLines, List.map_cons, List.map_nil, List.sum_cons, List.sum_nil,
    String.length_append, length_hexFixed, length_checkBoxText, length_macText, c0, c2, c3, c4,
    c5, c6, c7, c8, c9, c10, c11, c12, c13, c14, c15, c16, c17]
  omega

/-- When the `%.1f` conversion has at most 11 characters, `update_eeprom_text`
passes every assertion; the menu it leaves. -/
theorem update_eeprom_text_eq (k : Platform) (hours : Int → String) (s : Settings)
    (h : (hours s.time_zone_offset).length ≤ 11) :
    update_eeprom_text k hours s
      = some { menu_items := storeLines (List.replicate MAX_LINES none) 0 (eepromLines k hours s)
               pool_offset := ((eepromLines k hours s).map (fun p => p.2.length + 1)).sum
               item_count := 17 } := by
  have hs := size_eepromLines k hours s
  have hp := pushLines_eq_some (eepromLines k hours s)
    { menu_items := List.replicate MAX_LINES none, pool_offset := 0 } 0
    (by rw [length_eepromLines]; decide)
    (by simp only [MAX_CHARACTERS]; omega)
  simp only [update_eeprom_text, hp, length_eepromLines, Nat.zero_add]

/-! ## The lines of the menu -/

/-- C15, as the claim states it, fails: at the initial settings the third
line is the Game Region line and has no action, and no line of the menu is
bound to `increment_game_region`. -/
theorem C15_game_region_line_has_no_action :
    (update_eeprom_text xboxPlatform (fun _ => "0.0") Settings.initial).map
        (fun m => m.lines.getD 2 none)
      = some (some { label := "Game Region: Unknown", callback := none })
    ∧ (update_eeprom_text xboxPlatform (fun _ => "0.0") Settings.initial).map
        (fun m => decide (some (some Callback.increment_game_region)
          ∈ m.lines.map (fun o => o.map (fun i => i.callback))))
      = some false := by
  set_option maxRecDepth 100000 in decide

/-- C15, amended: for all settings (the `%.1f` conversion having at most 11
characters, so that the texts fit), the menu has 17 lines; the action is
absent exactly on the title line, the Game Region line and the Video Flags
and Audio Flags summaries, and every other line is bound to its own function:
the apply line to `apply_settings`, each remaining field line to the mutator
of its field. -/
theorem C15_line_actions (k : Platform) (hours : Int → String) (s : Settings)
    (h : (hours s.time_zone_offset).length ≤ 11) :
    ∃ m, update_eeprom_text k hours s = some m
      ∧ m.lines = (eepromLines k hours s).map
          (fun p => some { label := p.2, callback := p.1 })
      ∧ m.lines.getD 0 none = some { label := "EEPROM Settings", callback := none }
      ∧ m.lines.getD 2 none
          = some { label := "Game Region: " ++ gameRegionText s.game_region_index
                   callback := none }
      ∧ m.lines.getD 6 none
          = some { label := "Video Flags: 0x" ++ hexFixed 8 (s.video_flags % 2 ^ 32)
                   callback := none }
      ∧ m.lines.getD 12 none
          = some { label := "Audio Flags: 0x" ++ hexFixed 8 (s.audio_flags % 2 ^ 32)
                   callback := none }
      ∧ m.lines.map (fun o => o.map (fun i => i.callback))
          = [some none,
              some (some Callback.apply_settings),
              some none,
              some (some Callback.increment_dvd_region),
              some (some Callback.increment_language),
              some (some Callback.increment_video_region),
              some none,
              some (some Callback.video_increment_aspect_ratio),
              some (some Callback.video_increment_refresh_rate),
              some (some Callback.video_toggle_480p),
              some (some Callback.video_toggle_720p),
              some (some Callback.video_toggle_1080i),
              some none,
              some (some Callback.audio_increment_channel),
              some (some Callback.audio_increment_encoding),
              some (some Callback.mac_address_generate),
              some (some Callback.increment_timezone_bios)] := by
  refine ⟨_, update_eeprom_text_eq k hours s h, ?_⟩
  have e : (MenuState.mk (storeLines (List.replicate MAX_LINES none) 0 (eepromLines k hours s))
      ((eepromLines k hours s).map (fun p => p.2.length + 1)).sum 17).lines
      = (eepromLines k hours s).map (fun p => some { label := p.2, callback := p.1 }) := by
    simp [MenuState.lines, eepromLines, storeLines, MAX_LINES, List.replicate]
  rw [e]
  simp [eepromLines]

/-- C15 amended, at the initial settings and the conversion `0.0`: the
third line has no action. -/
theorem C15_line_actions_witness :
    (update_eeprom_text xboxPlatform (fun _ => "0.0") Settings.initial).map
        (fun m => (m.lines.getD 2 none).map (fun i => i.callback))
      = some (some none) := by
  obtain ⟨m, h1, _, _, h2, _⟩ :=
    C15_line_actions xboxPlatform (fun _ => "0.0") Settings.initial (by decide)
  rw [h1, Option.map_some', h2]
  rfl

/-- C16: for all settings, of which the `%.1f` conversion of the time zone
has at most 11 characters, `update_eeprom_text` passes both assertions of
every `push_line` and leaves exactly 17 lines and a text size, one
terminator per line counted, below 512 bytes (at most 432). -/
theorem C16_menu_within_capacity (k : Platform) (hours : Int → String) (s : Settings)
    (h : (hours s.time_zone_offset).length ≤ 11) :
    ∃ m, update_eeprom_text k hours s = some m
      ∧ m.item_count = 17
      ∧ m.lines.length = 17
      ∧ m.item_count < MAX_LINES
      ∧ m.pool_offset = ((eepromLines k hours s).map (fun p => p.2.length + 1)).sum
      ∧ m.pool_offset < MAX_CHARACTERS
      ∧ m.pool_offset ≤ 432 := by
  have hs := size_eepromLines k hours s
  refine ⟨_, update_eeprom_text_eq k hours s h, rfl, ?_, ?_, rfl, ?_, ?_⟩
  · simp [MenuState.lines, eepromLines, storeLines, MAX_LINES, List.replicate]
  · show (17 : Nat) < MAX_LINES
    decide
  · simp only [MAX_CHARACTERS]
    omega
  · simp only []
    omega

/-- C16, at settings whose texts are the longest of each line and a
conversion of 11 characters: 17 lines, below 512 bytes. -/
theorem C16_menu_within_capacity_witness :
    (update_eeprom_text xboxPlatform (fun _ => "-35791396.0")
        { Settings.initial with
          dirty := 1, game_region_index := 4, dvd_region_index := 5, language_index := 9,
          video_flags := 0x00C10000, audio_flags := 0x00030002 }).map
        (fun m => (m.item_count, decide (m.pool_offset < MAX_CHARACTERS)))
      = some (17, true) := by
  obtain ⟨m, h1, h2, _, _, _, h3, _⟩ :=
    C16_menu_within_capacity xboxPlatform (fun _ => "-35791396.0")
      { Settings.initial with
        dirty := 1, game_region_index := 4, dvd_region_index := 5, language_index := 9,
        video_flags := 0x00C10000, audio_flags := 0x00030002 } (by decide)
  rw [h1, Option.map_some', h2, decide_eq_true h3]

end MenuEeprom
